import Mathlib

/-!
Verification development for the road-network connectivity and
path-segmentation engine of the route-registration tool.

The Python sources are embedded shallowly:

* coordinates are pairs of rationals (the floating-point real code is modelled
  with exact rational arithmetic);
* the geodesic kernels (`pyproj.Geod.inv` / `Geod.fwd`, `geopy.distance`,
  `math.atan2`) are abstracted as explicit function parameters `d` (edge
  distance) and `interp` (point interpolation); all control flow, epsilon
  comparisons and data plumbing is translated literally from the source;
* SQL queries over the `roads` table are modelled as list traversals over an
  explicit list of rows, translating the `WHERE`/`CASE` clauses literally;
* Python `while` loops whose termination is not structural are given an
  explicit fuel parameter; a fuel-exhausted run is `none`.
-/

/-- A coordinate: a pair of rationals.  Depending on the module the source
stores `(lat, lng)` or `(lng, lat)`; comments at each definition note which. -/
abbrev Pt : Type := ℚ × ℚ

/-- The `1e-9` floating point epsilon of `segment.py` (distances in km). -/
def epsSeg : ℚ := 1 / 1000000000

/-- Path length: sum of `d` over consecutive pairs
(`segment.py::line_length_km` structure, with the geodesic kernel `d`
abstracted). -/
def line_length (d : Pt → Pt → ℚ) : List Pt → ℚ
  | [] => 0
  | [_] => 0
  | p :: q :: tl => d p q + line_length d (q :: tl)

/-- One edge of `segment.py::segment_polyline_by_distance`: the inner
`while remaining_dist > 1e-9` loop.  State: already closed pieces `segs`,
the open piece `current_segment`, its accumulated length `acc`, the position
`curStart` along the edge and the remaining edge length `remaining`.
`fuel` bounds the number of loop iterations; `none` models a run that does
not terminate within `fuel` iterations. -/
def edgeLoop (d : Pt → Pt → ℚ) (interp : Pt → Pt → ℚ → Pt) (T : ℚ) (p2 : Pt) :
    ℕ → List (List Pt) → List Pt → ℚ → Pt → ℚ →
    Option (List (List Pt) × List Pt × ℚ)
  | 0, _, _, _, _, _ => none
  | Nat.succ fuel, segs, cur, acc, curStart, remaining =>
    if remaining ≤ epsSeg then some (segs, cur, acc)
    else
      let space := T - acc
      if remaining ≤ space then
        let cur' := cur ++ [p2]
        let acc' := acc + remaining
        if |acc' - T| < epsSeg then some (segs ++ [cur'], [p2], 0)
        else some (segs, cur', acc')
      else
        let frac := space / remaining
        let cut := interp curStart p2 frac
        edgeLoop d interp T p2 fuel (segs ++ [cur ++ [cut]]) [cut] 0 cut
          (remaining - space)

/-- The outer `for i in range(1, len(coords))` loop of
`segment_polyline_by_distance`, one `edgeLoop` per edge. -/
def segLoop (d : Pt → Pt → ℚ) (interp : Pt → Pt → ℚ → Pt) (T : ℚ) (fuel : ℕ) :
    List Pt → Pt → List (List Pt) → List Pt → ℚ →
    Option (List (List Pt) × List Pt × ℚ)
  | [], _, segs, cur, acc => some (segs, cur, acc)
  | p2 :: tl, p1, segs, cur, acc =>
    match edgeLoop d interp T p2 fuel segs cur acc p1 (d p1 p2) with
    | none => none
    | some (segs', cur', acc') => segLoop d interp T fuel tl p2 segs' cur' acc'

/-- `segment.py::segment_polyline_by_distance`, with the geodesic kernels
abstracted as `d`/`interp` and the non-structural inner loop fueled. -/
def segment_polyline_by_distance (d : Pt → Pt → ℚ) (interp : Pt → Pt → ℚ → Pt)
    (coords : List Pt) (T : ℚ) (fuel : ℕ) : Option (List (List Pt)) :=
  match coords with
  | [] => some []
  | [c] => some [[c]]
  | c0 :: c1 :: tl =>
    match segLoop d interp T fuel (c1 :: tl) c0 [] [c0] 0 with
    | none => none
    | some (segs, cur, _) =>
      some (if 1 < cur.length then segs ++ [cur] else segs)

/-- Observer mirroring `edgeLoop` step for step: `some true` iff the loop
never takes the `remaining_dist <= 1e-9` exit before the edge's endpoint was
appended, i.e. no point of the polyline is silently dropped on this edge. -/
def edgeLoopClean (d : Pt → Pt → ℚ) (T : ℚ) :
    ℕ → ℚ → ℚ → Option Bool
  | 0, _, _ => none
  | Nat.succ fuel, acc, remaining =>
    if remaining ≤ epsSeg then some false
    else
      let space := T - acc
      if remaining ≤ space then some true
      else edgeLoopClean d T fuel 0 (remaining - space)

/-- Observer mirroring `segLoop`: `some true` iff every edge is processed
cleanly (see `edgeLoopClean`).  Only the numeric state (`acc`, the edge
lengths) matters for cleanliness. -/
def segLoopClean (d : Pt → Pt → ℚ) (interp : Pt → Pt → ℚ → Pt) (T : ℚ)
    (fuel : ℕ) : List Pt → Pt → List (List Pt) → List Pt → ℚ → Option Bool
  | [], _, _, _, _ => some true
  | p2 :: tl, p1, segs, cur, acc =>
    match edgeLoopClean d T fuel acc (d p1 p2) with
    | none => none
    | some false => some false
    | some true =>
      match edgeLoop d interp T p2 fuel segs cur acc p1 (d p1 p2) with
      | none => none
      | some (segs', cur', acc') =>
        segLoopClean d interp T fuel tl p2 segs' cur' acc'

/-- Clean-run observer for `segment_polyline_by_distance`. -/
def segRunClean (d : Pt → Pt → ℚ) (interp : Pt → Pt → ℚ → Pt)
    (coords : List Pt) (T : ℚ) (fuel : ℕ) : Option Bool :=
  match coords with
  | [] => some true
  | [_] => some true
  | c0 :: c1 :: tl => segLoopClean d interp T fuel (c1 :: tl) c0 [] [c0] 0

/-- Tails of the later pieces: each piece after the first contributes its
coordinates with the duplicated first point dropped. -/
def joinTails : List (List Pt) → List Pt
  | [] => []
  | s :: rest => s.tail ++ joinTails rest

/-- Concatenate the output pieces, dropping the duplicated first point of
every piece after the first (each piece starts with the cut point that closed
the previous piece). -/
def joinPieces : List (List Pt) → List Pt
  | [] => []
  | s :: rest => s ++ joinTails rest

/-- Concrete instantiation of the abstract distance kernel used in witnesses
and counterexamples: taxicab distance on the coordinate plane.  It satisfies
the same structural properties (nonnegative, zero on equal points, additive
along `interpLin`) that the geodesic kernel satisfies along a geodesic. -/
def dTaxi (p q : Pt) : ℚ := |q.1 - p.1| + |q.2 - p.2|

/-- Concrete instantiation of the abstract interpolation kernel: linear
interpolation. -/
def interpLin (p q : Pt) (f : ℚ) : Pt :=
  (p.1 + f * (q.1 - p.1), p.2 + f * (q.2 - p.2))

example :
    segment_polyline_by_distance dTaxi interpLin
      [((0 : ℚ), (0 : ℚ)), (0, 3), (0, 5)] 2 20 =
    some [[(0, 0), (0, 2)], [(0, 2), (0, 3), (0, 4)], [(0, 4), (0, 5)]] := by
  norm_num [segment_polyline_by_distance, segLoop, edgeLoop, dTaxi, interpLin,
    epsSeg]

example :
    segment_polyline_by_distance dTaxi interpLin
      [((0 : ℚ), (0 : ℚ)), (0, 0), (0, 3)] 2 20 =
    some [[(0, 0), (0, 2)], [(0, 2), (0, 3)]] := by
  norm_num [segment_polyline_by_distance, segLoop, edgeLoop, dTaxi, interpLin,
    epsSeg]

example :
    segRunClean dTaxi interpLin [((0 : ℚ), (0 : ℚ)), (0, 3), (0, 5)] 2 20 =
    some true := by
  norm_num [segRunClean, segLoopClean, edgeLoopClean, edgeLoop, dTaxi,
    interpLin, epsSeg]

example :
    segRunClean dTaxi interpLin [((0 : ℚ), (0 : ℚ)), (0, 0), (0, 3)] 2 20 =
    some false := by
  norm_num [segRunClean, segLoopClean, edgeLoopClean, edgeLoop, dTaxi,
    interpLin, epsSeg]

/-!
## `spatial_helpers.py`

Coordinates here are `[lng, lat]` pairs; the haversine kernel is abstracted
as a distance parameter `d` (the mathematical symmetry of the source's
haversine formula is proved with claim C8 below).
-/

/-- The four endpoint pairings checked by `are_roads_connected`, in the
source's enumeration order. -/
inductive CPair where
  | ss  -- 'start-start'
  | se  -- 'start-end'
  | es  -- 'end-start'
  | ee  -- 'end-end'
deriving DecidableEq

/-- Result dictionary of `are_roads_connected`. -/
structure RoadConn where
  connected : Bool
  connection_type : Option CPair
  distance : Option ℚ
  connection_point : Option Pt
deriving DecidableEq

/-- `first matching element` helper, mirroring the Python
`for ...: if ...: return` loop shape. -/
def firstSuchThat (p : α → Prop) [DecidablePred p] : List α → Option α
  | [] => none
  | x :: tl => if p x then some x else firstSuchThat p tl

/-- `spatial_helpers.py::are_roads_connected` with the haversine kernel
abstracted as `d`.  `are_points_connected` is inlined:
`is_connected = d p1 p2 <= tolerance`. -/
def are_roads_connected (d : Pt → Pt → ℚ) (road1 road2 : List Pt)
    (tol : ℚ) : RoadConn :=
  if road1.length < 2 ∨ road2.length < 2 then
    ⟨false, none, none, none⟩
  else
    match road1, road2 with
    | s1 :: r1, s2 :: r2 =>
      let e1 := r1.getLastD s1
      let e2 := r2.getLastD s2
      let connections : List (CPair × Pt × Pt) :=
        [(.ss, s1, s2), (.se, s1, e2), (.es, e1, s2), (.ee, e1, e2)]
      match firstSuchThat (fun c => d c.2.1 c.2.2 ≤ tol) connections with
      | some (t, p1, p2) => ⟨true, some t, some (d p1 p2), some p1⟩
      | none =>
        let minDist :=
          (connections.map (fun c => d c.2.1 c.2.2)).foldl min (d s1 s2)
        ⟨false, none, some minDist, none⟩
    | _, _ => ⟨false, none, none, none⟩

example :
    are_roads_connected dTaxi [((0 : ℚ), 0), (5, 0)] [((3 : ℚ), 0), (0, 0)] 4
      = ⟨true, some .ss, some 3, some (0, 0)⟩ := by
  norm_num [are_roads_connected, firstSuchThat, dTaxi]

example :
    (are_roads_connected dTaxi [((0 : ℚ), 0), (5, 0)] [((30 : ℚ), 0), (20, 0)]
      4).connected = false := by
  norm_num [are_roads_connected, firstSuchThat, dTaxi]

/-!
## `sql_connectivity.py`

The `roads` table is modelled as an explicit list of rows; each SQL query of
the source is translated into the corresponding list traversal (the `WHERE`
and `CASE` clauses literally).  Latitudes/longitudes are exact rationals.
Python `set` iteration order is unspecified; `list(set(...))` is modelled as
sorting the deduplicated list ascending (`setList`), and every theorem below
either is independent of that order or is instantiated where the order does
not matter.
-/

/-- A row of the `roads` table (the columns the connectivity code touches).
`deleted = true` models `deleted_at IS NOT NULL`; `polyline` models the
already-parsed `coordinates` of the stored GeoJSON (`none` = missing or
unparsable); a SQL `NULL` length is modelled as `0` (the source coalesces
with `or 0`). -/
structure RoadRow where
  id : ℤ
  project_id : ℤ
  start_lat : ℚ
  start_lng : ℚ
  end_lat : ℚ
  end_lng : ℚ
  deleted : Bool
  priority : String
  length : ℚ
  name : String
  is_enabled : Bool
  polyline : Option (List Pt)
deriving DecidableEq

/-- Propositional filter, mirroring a SQL `WHERE` clause / Python list
comprehension. -/
def filterP (p : α → Prop) [DecidablePred p] : List α → List α
  | [] => []
  | x :: tl => if p x then x :: filterP p tl else filterP p tl

/-- Insertion step of the insertion sort used to model `ORDER BY road_id`
and the fixed iteration order chosen for Python sets of ids. -/
def insertByKey (key : α → ℤ) (x : α) : List α → List α
  | [] => [x]
  | y :: tl => if key x ≤ key y then x :: y :: tl else y :: insertByKey key x tl

/-- Sort by an integer key (insertion sort). -/
def sortByKey (key : α → ℤ) (l : List α) : List α := l.foldr (insertByKey key) []

/-- Deduplication keeping first occurrences. -/
def dedupFirstAux : List ℤ → List ℤ → List ℤ
  | [], _ => []
  | x :: tl, seen =>
    if x ∈ seen then dedupFirstAux tl seen else x :: dedupFirstAux tl (x :: seen)

/-- Model of Python `list(set(l))` for lists of ids: deduplicate and fix the
(unspecified) set iteration order as ascending. -/
def setList (l : List ℤ) : List ℤ := sortByKey (fun x => x) (dedupFirstAux l [])

/-- `priority IN (...)` clause: absent or empty priority lists add no
filter (Python truthiness of `priorities`). -/
def priorityOk (prios : Option (List String)) (r : RoadRow) : Prop :=
  match prios with
  | none => True
  | some [] => True
  | some (p :: tl) => r.priority ∈ p :: tl

instance (prios : Option (List String)) (r : RoadRow) :
    Decidable (priorityOk prios r) := by
  unfold priorityOk
  match prios with
  | none => exact inferInstanceAs (Decidable True)
  | some [] => exact inferInstanceAs (Decidable True)
  | some (p :: tl) => exact inferInstanceAs (Decidable (_ ∈ _))

/-- Which of the neighbour road's endpoints touches the target endpoint
(`connection_point` column: `'start'` / `'end'`). -/
inductive WhichEnd where
  | atStart
  | atEnd
deriving DecidableEq

/-- One row of the `start_connections` / `end_connections` CTEs after the
python post-processing (`distance_meters = distance_approx * 111000`). -/
structure ConnEntry where
  road_id : ℤ
  connection_point : WhichEnd
  distance_meters : ℚ
deriving DecidableEq

/-- One endpoint-CTE of the big query in `get_road_connections_sql`:
all roads of the target's project (minus the target itself, minus deleted,
optionally filtered by priority) having an endpoint within `tol` degrees of
the target point `(tlat, tlng)` by the `ABS(...) < tol` box test; ordered by
road id (`ORDER BY target_endpoint, road_id`); `connection_point` and
`distance_approx` from the `CASE` expressions (start tested first). -/
def endpointConnections (db : List RoadRow) (tr : RoadRow) (tlat tlng : ℚ)
    (tol : ℚ) (prios : Option (List String)) : List ConnEntry :=
  let rows := filterP (fun r : RoadRow =>
    r.project_id = tr.project_id ∧ ¬(r.id = tr.id) ∧ r.deleted = false ∧
    priorityOk prios r ∧
    ((|r.start_lat - tlat| < tol ∧ |r.start_lng - tlng| < tol) ∨
     (|r.end_lat - tlat| < tol ∧ |r.end_lng - tlng| < tol))) db
  (sortByKey (fun r : RoadRow => r.id) rows).map (fun r =>
    if |r.start_lat - tlat| < tol ∧ |r.start_lng - tlng| < tol then
      ⟨r.id, .atStart, (|r.start_lat - tlat| + |r.start_lng - tlng|) * 111000⟩
    else
      ⟨r.id, .atEnd, (|r.end_lat - tlat| + |r.end_lng - tlng|) * 111000⟩)

/-- The `(road_id, connection_point)`-keyed deduplication keeping first
occurrences. -/
def dedupConnsAux : List ConnEntry → List (ℤ × WhichEnd) → List ConnEntry
  | [], _ => []
  | c :: tl, seen =>
    if (c.road_id, c.connection_point) ∈ seen then dedupConnsAux tl seen
    else c :: dedupConnsAux tl ((c.road_id, c.connection_point) :: seen)

def dedupConns (l : List ConnEntry) : List ConnEntry := dedupConnsAux l []

/-- The reversed-endpoints test of
`_detect_bidirectional_pairs_at_endpoint`. -/
def mirrorRows (a b : RoadRow) (tol : ℚ) : Prop :=
  (|a.start_lat - b.end_lat| < tol ∧ |a.start_lng - b.end_lng| < tol) ∧
  (|a.end_lat - b.start_lat| < tol ∧ |a.end_lng - b.start_lng| < tol)

instance (a b : RoadRow) (tol : ℚ) : Decidable (mirrorRows a b tol) := by
  unfold mirrorRows; infer_instance

/-- `mirrorRows` lifted to the optional endpoint-map entry (`road_id not in
endpoints` fails the test). -/
def mirrorOpt (re : RoadRow) (tol : ℚ) : Option RoadRow → Prop
  | none => False
  | some oe => mirrorRows re oe tol

instance (re : RoadRow) (tol : ℚ) (o : Option RoadRow) :
    Decidable (mirrorOpt re tol o) := by
  match o with
  | none => exact inferInstanceAs (Decidable False)
  | some oe => exact inferInstanceAs (Decidable (mirrorRows re oe tol))

/-- `sql_connectivity.py::_detect_bidirectional_pairs_at_endpoint`
(the leading underscore of the Python name is dropped): group the given road
ids, merging roads whose endpoints are swapped within tolerance; roads with
no endpoint row become singleton groups. -/
def detect_bidirectional_pairs_at_endpoint (db : List RoadRow)
    (roadIds : List ℤ) (pid : ℤ) (tol : ℚ) : List (List ℤ) :=
  match roadIds with
  | [] => []
  | [rid] => [[rid]]
  | _ =>
    let rows := filterP (fun r : RoadRow => r.id ∈ roadIds ∧ r.project_id = pid) db
    if rows = [] then roadIds.map (fun rid => [rid])
    else
      let ep := fun rid => firstSuchThat (fun r : RoadRow => r.id = rid) rows
      let step := fun (acc : List (List ℤ) × List ℤ) (rid : ℤ) =>
        match ep rid with
        | none => acc
        | some re =>
          if rid ∈ acc.2 then acc
          else
            let grp := rid :: filterP (fun o : ℤ =>
              ¬(o = rid) ∧ o ∉ acc.2 ∧ mirrorOpt re tol (ep o)) roadIds
            (acc.1 ++ [grp], acc.2 ++ grp)
      let fs := roadIds.foldl step ([], [])
      let final := roadIds.foldl (fun (acc : List (List ℤ) × List ℤ) rid =>
        if rid ∈ acc.2 then acc else (acc.1 ++ [[rid]], acc.2 ++ [rid])) fs
      final.1

/-- Result dictionary of `get_road_connections_sql`. -/
structure ConnectionsResult where
  road_id : ℤ
  startConns : List ConnEntry
  endConns : List ConnEntry
  is_intersection : Bool
  total_connections : ℕ
deriving DecidableEq

/-- `sql_connectivity.py::get_road_connections_sql`.  The target-road CTE is
the first row matching `id = ? AND project_id = ? AND deleted_at IS NULL`;
an unknown target yields empty connection lists (the SQL cross join is
empty). -/
def get_road_connections_sql (db : List RoadRow) (road_id pid : ℤ) (tol : ℚ)
    (prios : Option (List String)) : ConnectionsResult :=
  match firstSuchThat (fun r : RoadRow =>
      r.id = road_id ∧ r.project_id = pid ∧ r.deleted = false) db with
  | none => ⟨road_id, [], [], false, 0⟩
  | some tr =>
    let sc := dedupConns (endpointConnections db tr tr.start_lat tr.start_lng tol prios)
    let ec := dedupConns (endpointConnections db tr tr.end_lat tr.end_lng tol prios)
    let startIds := setList (sc.map (fun c => c.road_id))
    let endIds := setList (ec.map (fun c => c.road_id))
    let bwt := filterP (fun rid : ℤ => rid ∈ endIds) startIds
    let startPairs := detect_bidirectional_pairs_at_endpoint db startIds pid tol
    let endPairs := detect_bidirectional_pairs_at_endpoint db endIds pid tol
    let us := if bwt = [] then startPairs.length else
      startPairs.length -
        (filterP (fun p : List ℤ => ∃ r ∈ p, r ∈ bwt) startPairs).length
    let ue := if bwt = [] then endPairs.length else
      endPairs.length -
        (filterP (fun p : List ℤ => ∃ r ∈ p, r ∈ bwt) endPairs).length
    ⟨road_id, sc, ec, decide (2 < us + ue), sc.length + ec.length⟩

/-- `sql_connectivity.py::_traverse_linear_sql` (leading underscore dropped):
follow single unvisited connections until a dead end, an intersection, a
cycle, or the `max_depth` bound.  The fuel is exactly the source's
`while len(sequence) < max_depth` bound. -/
def traverse_linear_sql (db : List RoadRow) (pid : ℤ) (tol : ℚ)
    (prios : Option (List String)) : ℕ → ℤ → List ℤ → List ℤ
  | 0, _, _ => []
  | Nat.succ fuel, current, visited =>
    if current ∈ visited then []
    else
      let conns := get_road_connections_sql db current pid tol prios
      let allConnected := conns.startConns.map (fun c => c.road_id) ++
        conns.endConns.map (fun c => c.road_id)
      let unvisited := filterP (fun rid : ℤ => rid ∉ current :: visited) allConnected
      let uniqueUnvisited := setList unvisited
      if ¬(uniqueUnvisited.length = 1) then [current]
      else
        current :: traverse_linear_sql db pid tol prios fuel
          (uniqueUnvisited.headD 0) (current :: visited)

/-- Last-wins dictionary lookup (`{c['road_id']: c for c in conns}`). -/
def connMapGet (l : List ConnEntry) (rid : ℤ) : Option ConnEntry :=
  firstSuchThat (fun c : ConnEntry => c.road_id = rid) l.reverse

/-- `conn_info and conn_info['connection_point'] == want`
(a missing map entry fails the test). -/
def connPointIs (want : WhichEnd) : Option ConnEntry → Prop
  | some c => c.connection_point = want
  | none => False

instance (want : WhichEnd) (o : Option ConnEntry) :
    Decidable (connPointIs want o) := by
  match o with
  | none => exact inferInstanceAs (Decidable False)
  | some c => exact inferInstanceAs (Decidable (c.connection_point = want))

/-- Direction selection of `stretch_road_sql`: the first road of the
candidate set whose stored connection point is `want` (the correctly
oriented continuation), falling back to the first candidate. -/
def pickNext (usr : List ℤ) (m : ℤ → Option ConnEntry) (want : WhichEnd) :
    Option ℤ :=
  match firstSuchThat (fun rid : ℤ => connPointIs want (m rid)) usr with
  | some rid => some rid
  | none => usr.head?

/-- The `unique_start_roads` set of `stretch_road_sql`
(`start_road_ids - bidirectional_with_target`, raw ids). -/
def stretchUniqueStartRoads (db : List RoadRow) (road_id pid : ℤ) (tol : ℚ)
    (prios : Option (List String)) : List ℤ :=
  let conns := get_road_connections_sql db road_id pid tol prios
  let startIds := setList (conns.startConns.map (fun c => c.road_id))
  let endIds := setList (conns.endConns.map (fun c => c.road_id))
  let bwt := filterP (fun rid : ℤ => rid ∈ endIds) startIds
  filterP (fun rid : ℤ => rid ∉ bwt) startIds

/-- The `unique_end_roads` set of `stretch_road_sql`. -/
def stretchUniqueEndRoads (db : List RoadRow) (road_id pid : ℤ) (tol : ℚ)
    (prios : Option (List String)) : List ℤ :=
  let conns := get_road_connections_sql db road_id pid tol prios
  let startIds := setList (conns.startConns.map (fun c => c.road_id))
  let endIds := setList (conns.endConns.map (fun c => c.road_id))
  let bwt := filterP (fun rid : ℤ => rid ∈ startIds) endIds
  filterP (fun rid : ℤ => rid ∉ bwt) endIds

/-- The group-collapsed `unique_start_count` of `stretch_road_sql`
(bidirectional pairs count once; groups containing a road that also touches
the target's other endpoint are discounted). -/
def stretchUniqueStartCount (db : List RoadRow) (road_id pid : ℤ) (tol : ℚ)
    (prios : Option (List String)) : ℕ :=
  let conns := get_road_connections_sql db road_id pid tol prios
  let startIds := setList (conns.startConns.map (fun c => c.road_id))
  let endIds := setList (conns.endConns.map (fun c => c.road_id))
  let bwt := filterP (fun rid : ℤ => rid ∈ endIds) startIds
  let startPairs := detect_bidirectional_pairs_at_endpoint db startIds pid tol
  if bwt = [] then startPairs.length else
    startPairs.length -
      (filterP (fun p : List ℤ => ∃ r ∈ p, r ∈ bwt) startPairs).length

/-- The group-collapsed `unique_end_count` of `stretch_road_sql`. -/
def stretchUniqueEndCount (db : List RoadRow) (road_id pid : ℤ) (tol : ℚ)
    (prios : Option (List String)) : ℕ :=
  let conns := get_road_connections_sql db road_id pid tol prios
  let startIds := setList (conns.startConns.map (fun c => c.road_id))
  let endIds := setList (conns.endConns.map (fun c => c.road_id))
  let bwt := filterP (fun rid : ℤ => rid ∈ startIds) endIds
  let endPairs := detect_bidirectional_pairs_at_endpoint db endIds pid tol
  if bwt = [] then endPairs.length else
    endPairs.length -
      (filterP (fun p : List ℤ => ∃ r ∈ p, r ∈ bwt) endPairs).length

/-- Backward chain of `stretch_road_sql` (extending from the seed's start,
entered only when the collapsed unique-road count there is exactly 1). -/
def stretchBackward (db : List RoadRow) (road_id pid : ℤ) (maxDepth : ℕ)
    (tol : ℚ) (prios : Option (List String)) : List ℤ :=
  let conns := get_road_connections_sql db road_id pid tol prios
  let usr := stretchUniqueStartRoads db road_id pid tol prios
  if stretchUniqueStartCount db road_id pid tol prios = 1 ∧ 0 < usr.length then
    match pickNext usr (connMapGet conns.startConns) .atEnd with
    | some nrid => traverse_linear_sql db pid tol prios maxDepth nrid [road_id]
    | none => []
  else []

/-- Forward chain of `stretch_road_sql` (extending from the seed's end; the
visited set already holds the seed and the backward chain). -/
def stretchForward (db : List RoadRow) (road_id pid : ℤ) (maxDepth : ℕ)
    (tol : ℚ) (prios : Option (List String)) (visited : List ℤ) : List ℤ :=
  let conns := get_road_connections_sql db road_id pid tol prios
  let uer := stretchUniqueEndRoads db road_id pid tol prios
  if stretchUniqueEndCount db road_id pid tol prios = 1 ∧ 0 < uer.length then
    match pickNext uer (connMapGet conns.endConns) .atStart with
    | some nrid => traverse_linear_sql db pid tol prios maxDepth nrid visited
    | none => []
  else []

/-- The assembled `road_sequence` of `stretch_road_sql`:
reversed backward chain, seed, forward chain. -/
def stretchSequence (db : List RoadRow) (road_id pid : ℤ) (maxDepth : ℕ)
    (tol : ℚ) (prios : Option (List String)) : List ℤ :=
  let backward := stretchBackward db road_id pid maxDepth tol prios
  let forward := stretchForward db road_id pid maxDepth tol prios
    (road_id :: backward)
  backward.reverse ++ [road_id] ++ forward

/-- Endpoint classification labels (`'intersection'` / `'dead_end'`). -/
inductive EndType where
  | intersection
  | dead_end
deriving DecidableEq

/-- One `endpoints` entry of the stretch result (`lat`/`lng` are `None`
when the road row is missing). -/
structure EndpointInfo where
  lat : Option ℚ
  lng : Option ℚ
  kind : EndType
deriving DecidableEq

/-- Result dictionary of `stretch_road_sql`. -/
structure StretchResult where
  roads : List RoadRow
  total_length : ℚ
  total_count : ℕ
  ep_start : EndpointInfo
  ep_end : EndpointInfo
  is_intersection_start : Bool
  is_intersection_end : Bool
deriving DecidableEq

/-- `sql_connectivity.py::stretch_road_sql`: traverse both directions, fetch
the member rows (`WHERE id IN (...) AND project_id = ?`, no deleted filter),
order them by the traversal sequence, sum lengths, and classify both stretch
endpoints from the raw `unique_start_roads`/`unique_end_roads` id sets. -/
def stretch_road_sql (db : List RoadRow) (road_id pid : ℤ) (maxDepth : ℕ)
    (tol : ℚ) (prios : Option (List String)) : StretchResult :=
  let seq := stretchSequence db road_id pid maxDepth tol prios
  let rows := filterP (fun r : RoadRow => r.id ∈ seq ∧ r.project_id = pid) db
  let ordered := seq.filterMap (fun s =>
    firstSuchThat (fun r : RoadRow => r.id = s) rows.reverse)
  let total_length := (ordered.map (fun r => r.length)).sum
  let firstId := seq.headD road_id
  let lastId := seq.getLastD road_id
  let epRows := filterP (fun r : RoadRow =>
    (r.id = firstId ∨ r.id = lastId) ∧ r.deleted = false) db
  let firstEp := firstSuchThat (fun r : RoadRow => r.id = firstId) epRows.reverse
  let lastEp := firstSuchThat (fun r : RoadRow => r.id = lastId) epRows.reverse
  let usr := stretchUniqueStartRoads db road_id pid tol prios
  let uer := stretchUniqueEndRoads db road_id pid tol prios
  { roads := ordered
    total_length := total_length
    total_count := ordered.length
    ep_start :=
      ⟨firstEp.map (fun r => r.start_lat), firstEp.map (fun r => r.start_lng),
       if 1 < usr.length then .intersection else .dead_end⟩
    ep_end :=
      ⟨lastEp.map (fun r => r.end_lat), lastEp.map (fun r => r.end_lng),
       if 1 < uer.length then .intersection else .dead_end⟩
    is_intersection_start := decide (1 < usr.length)
    is_intersection_end := decide (1 < uer.length) }

/-- Gap descriptor of the continuity report (never produced: the source's
gap detection is an unimplemented TODO). -/
structure GapInfo where
  road_a : ℤ
  road_b : ℤ
  distance : ℚ
deriving DecidableEq

/-- Result dictionary of `validate_continuity_sql`. -/
structure ContinuityResult where
  is_continuous : Bool
  gaps : List GapInfo
  suggested_order : List ℤ
  total_length : ℚ
  connected_count : ℕ
  total_count : ℕ
deriving DecidableEq

/-- The per-road adjacency restricted to the selection
(`connectivity_map`): for each requested id, the connected roads that are
themselves in the request, deduplicated (`list(set(...))`). -/
def connectivity_map (db : List RoadRow) (roadIds : List ℤ) (pid : ℤ)
    (tol : ℚ) : List (ℤ × List ℤ) :=
  roadIds.map (fun rid =>
    let conns := get_road_connections_sql db rid pid tol none
    let inSelection := filterP (fun x : ℤ => x ∈ roadIds)
      (conns.startConns.map (fun c => c.road_id) ++
       conns.endConns.map (fun c => c.road_id))
    (rid, setList inSelection))

/-- Last-wins dictionary lookup into the adjacency map
(`connectivity_map.get(current, [])`). -/
def mapGet (m : List (ℤ × List ℤ)) (k : ℤ) : List ℤ :=
  match firstSuchThat (fun e : ℤ × List ℤ => e.1 = k) m.reverse with
  | some e => e.2
  | none => []

/-- The breadth-first reachability loop of `validate_continuity_sql`.
Fuel bounds the number of dequeues; each enqueued id is new in `visited`,
so `|road_ids| + 1` dequeues always suffice. -/
def bfsLoop (m : List (ℤ × List ℤ)) : ℕ → List ℤ → List ℤ → List ℤ
  | 0, _, visited => visited
  | _ + 1, [], visited => visited
  | Nat.succ fuel, current :: queue, visited =>
    let ns := filterP (fun n : ℤ => n ∉ visited) (mapGet m current)
    bfsLoop m fuel (queue ++ ns) (visited ++ ns)

/-- `sql_connectivity.py::_find_path_order` (leading underscore dropped):
depth-first linear path extraction — visit the start, follow the first
unvisited neighbour, stop at the first dead end.  Returns the path and the
final visited set; fuel bounds the recursion depth (each level visits a new
id, so `|road_ids|` levels always suffice). -/
def find_path_order (m : List (ℤ × List ℤ)) :
    ℕ → ℤ → List ℤ → List ℤ × List ℤ
  | 0, _, visited => ([], visited)
  | Nat.succ fuel, start, visited =>
    if start ∈ visited then ([], visited)
    else
      let visited' := start :: visited
      match firstSuchThat (fun n : ℤ => n ∉ visited') (mapGet m start) with
      | none => ([start], visited')
      | some nb =>
        let res := find_path_order m fuel nb visited'
        (start :: res.1, res.2)

/-- `sql_connectivity.py::validate_continuity_sql`: reachability check over
the selection-restricted adjacency, then (if continuous) a suggested order
from `_find_path_order` started at `road_ids[0]`.  The `gaps` and
`total_length` fields are the source's hard-coded `[]` and `0`
(both marked TODO in the source). -/
def validate_continuity_sql (db : List RoadRow) (roadIds : List ℤ) (pid : ℤ)
    (tol : ℚ) : ContinuityResult :=
  match roadIds with
  | [] => ⟨false, [], [], 0, 0, 0⟩
  | [rid] => ⟨true, [], [rid], 0, 1, 1⟩
  | rid :: rest =>
    let ids := rid :: rest
    let m := connectivity_map db ids pid tol
    let visited := bfsLoop m (ids.length + 1) [rid] [rid]
    let cont := visited.length = ids.length
    let order := if cont then (find_path_order m ids.length rid []).1 else []
    ⟨cont, [], order, 0, visited.length, ids.length⟩

/-- A disabled / non-priority / non-geometry default row used to build
concrete road rows tersely in examples. -/
def mkRoad (id : ℤ) (slat slng elat elng : ℚ) : RoadRow :=
  { id := id, project_id := 1, start_lat := slat, start_lng := slng,
    end_lat := elat, end_lng := elng, deleted := false, priority := "r",
    length := 1, name := "", is_enabled := true, polyline := none }

/-- Three roads in a line: 1 = (0,0)→(0,1), 2 = (0,1)→(0,2),
3 = (0,2)→(0,3). -/
def dbLine : List RoadRow :=
  [mkRoad 1 0 0 0 1, mkRoad 2 0 1 0 2, mkRoad 3 0 2 0 3]

example :
    (get_road_connections_sql dbLine 2 1 (1/1000) none).startConns =
      [⟨1, .atEnd, 0⟩] := by
  norm_num [get_road_connections_sql, dbLine, mkRoad, firstSuchThat,
    endpointConnections, filterP, priorityOk, sortByKey, insertByKey,
    dedupConns, dedupConnsAux, setList, dedupFirstAux,
    detect_bidirectional_pairs_at_endpoint, mirrorOpt, mirrorRows]

/-!
## `utils/stretch.py`

`build_stretches` partitions the fetched routes into chains following the
forward graph.  The graphs are built by `build_graphs` from exact endpoint
equality plus an angle filter computed with `math.atan2`; the numeric
kernels (`compute_angle`, `polyline_length_meters`) are abstracted as
function parameters, and the graphs themselves are taken as parameters
constrained (where a theorem needs it) to mention only input routes, which
is what `build_graphs` guarantees. -/

/-- A fetched route row (`fetch_routes`): the fields `build_stretches` and
`choose_best_next` read.  `uuid` is an opaque identifier. -/
structure RouteRow where
  uuid : ℤ
  length : ℚ
deriving DecidableEq

/-- A forward/reverse graph entry: `{"route": B, "angle": angle}`. -/
structure GraphOpt where
  route : RouteRow
  angle : ℚ
deriving DecidableEq

/-- Minimum of a key over a nonempty options list (the value
`options.sort(key)[0].key` that `choose_best_next` reads after sorting). -/
def minKey (key : GraphOpt → ℚ) (x : GraphOpt) (l : List GraphOpt) : ℚ :=
  l.foldl (fun acc o => min acc (key o)) (key x)

/-- One narrowing step of `choose_best_next`: sort by a key and keep the
ties of the minimum (`l.sort(key); smallest = l[0].key;
[o for o in l if o.key == smallest]`).  The survivors keep their original
relative order (Python's sort is stable). -/
def narrowMinBy (key : GraphOpt → ℚ) (l : List GraphOpt) : List GraphOpt :=
  match l with
  | [] => []
  | x :: tl => filterP (fun o : GraphOpt => key o = minKey key x tl) (x :: tl)

/-- `stretch.py::choose_best_next`: narrow the options by smallest angle,
then smallest stored length, then (when a parent is present) smallest angle
to the parent (`pangle`), then smallest decoded polyline length (`plm`);
return the first survivor (= `filtered3.sort(key=plm); filtered3[0]`). -/
def choose_best_next (pangle : RouteRow → GraphOpt → ℚ) (plm : RouteRow → ℚ)
    (options : List GraphOpt) (parent : Option RouteRow) : Option GraphOpt :=
  if options.isEmpty then none
  else
    let filtered := narrowMinBy (fun o => o.angle) options
    if filtered.length = 1 then filtered.head?
    else
      let filtered2 := narrowMinBy (fun o => o.route.length) filtered
      if filtered2.length = 1 then filtered2.head?
      else
        let filtered3 := match parent with
          | some par => narrowMinBy (fun o => pangle par o) filtered2
          | none => filtered2
        (narrowMinBy (fun o => plm o.route) filtered3).head?

/-- The inner `while True` loop of `build_stretches`: extend the current
stretch along the forward graph until there is no candidate or the candidate
was already used.  Fuel bounds the iterations (each one consumes an unused
uuid, so the number of routes suffices). -/
def buildStretchLoop (pangle : RouteRow → GraphOpt → ℚ) (plm : RouteRow → ℚ)
    (fwd : ℤ → List GraphOpt) (routeMap : ℤ → Option RouteRow) :
    ℕ → ℤ → Option ℤ → List ℤ → List ℤ → List ℤ × List ℤ
  | 0, _, _, stretch, used => (stretch, used)
  | Nat.succ fuel, current, parent, stretch, used =>
    let options := fwd current
    match choose_best_next pangle plm options
        ((parent.bind routeMap)) with
    | none => (stretch, used)
    | some best =>
      let next := best.route.uuid
      if next ∈ used then (stretch, used)
      else
        buildStretchLoop pangle plm fwd routeMap fuel next (some current)
          (stretch ++ [next]) (used ++ [next])

/-- `stretch.py::build_stretches`: one chain per start node (a route with no
reverse-graph entries), then singleton stretches for every remaining
route. -/
def build_stretches (pangle : RouteRow → GraphOpt → ℚ) (plm : RouteRow → ℚ)
    (routes : List RouteRow) (fwd : ℤ → List GraphOpt)
    (rev : ℤ → List GraphOpt) : List (List ℤ) :=
  let routeMap := fun u => firstSuchThat (fun r : RouteRow => r.uuid = u) routes
  let startNodes := filterP (fun r : RouteRow => rev r.uuid = []) routes
  let fs := startNodes.foldl (fun (acc : List (List ℤ) × List ℤ) route =>
    if route.uuid ∈ acc.2 then acc
    else
      let res := buildStretchLoop pangle plm fwd routeMap routes.length
        route.uuid none [route.uuid] (acc.2 ++ [route.uuid])
      (acc.1 ++ [res.1], res.2)) ([], [])
  let remaining := filterP (fun r : RouteRow => r.uuid ∉ fs.2) routes
  let final := remaining.foldl (fun (acc : List (List ℤ) × List ℤ) route =>
    if route.uuid ∈ acc.2 then acc
    else (acc.1 ++ [[route.uuid]], acc.2 ++ [route.uuid])) fs
  final.1

/-!
## `routes/roads_connectivity.py` and `routes/stretch_roads.py`
-/

/-- The error taxonomy named by the specification.  The embedded endpoints
return `Except ApiError _`; a `raise` in the source translates to
`.error`. -/
inductive ApiError where
  | notFoundError
  | invalidArgumentError
  | httpError (code : ℕ)
deriving DecidableEq

/-- `COORDINATE_TOLERANCE_DEGREES = 0.00005`. -/
def COORDINATE_TOLERANCE_DEGREES : ℚ := 5 / 100000

/-- A road formatted for an API response (`order` = position in the
chain). -/
structure ApiRoad where
  id : ℤ
  polyline : Option (List Pt)
  length : ℚ
  name : String
  is_enabled : Bool
  order : ℕ
deriving DecidableEq

/-- `data` payload of the `/roads/stretch/{road_id}` response. -/
structure StretchApiData where
  stretched_roads : List ApiRoad
  total_length : ℚ
  total_count : ℕ
  ep_start : EndpointInfo
  ep_end : EndpointInfo
  initial_road_id : ℤ
deriving DecidableEq

/-- `/roads/stretch/{road_id}` response envelope. -/
structure StretchApiResponse where
  success : Bool
  data : StretchApiData
deriving DecidableEq

/-- `routes/roads_connectivity.py::stretch_to_intersection`: convert the
optional `tolerance_meters` to degrees (Python truthiness: `0` and `None`
both fall back to the default tolerance; no validation of negative values),
run `stretch_road_sql` with `max_depth=100`, and wrap the result.  The
priority list is likewise dropped when falsy; quote-stripping of priorities
is the identity on the quote-free strings modelled here.  No code path
raises `NotFoundError` or `InvalidArgumentError`. -/
def stretch_to_intersection (db : List RoadRow) (road_id pid : ℤ)
    (tolerance_meters : Option ℚ) (prios : Option (List String)) :
    Except ApiError StretchApiResponse :=
  let tolDeg := match tolerance_meters with
    | none => COORDINATE_TOLERANCE_DEGREES
    | some t => if t = 0 then COORDINATE_TOLERANCE_DEGREES else t / 111000
  let cleanPrios := match prios with
    | none => none
    | some [] => none
    | some (p :: tl) => some (p :: tl)
  let r := stretch_road_sql db road_id pid 100 tolDeg cleanPrios
  let formatted := (r.roads.enum).map (fun ri =>
    (⟨ri.2.id, ri.2.polyline, ri.2.length, ri.2.name, ri.2.is_enabled,
      ri.1⟩ : ApiRoad))
  .ok ⟨true, ⟨formatted, r.total_length, r.total_count, r.ep_start, r.ep_end,
    road_id⟩⟩

/-- `EPSILON = 0.000001` of `routes/stretch_roads.py`. -/
def EPSILON_STRETCH : ℚ := 1 / 1000000

/-- Traversal direction of `find_next_road`. -/
inductive Direction where
  | forward
  | backward
deriving DecidableEq

/-- The mirror-road test of `find_next_road`: the candidate's endpoints
coincide (within epsilon) with the current road's, swapped or unswapped. -/
def gsrMirror (r cur : RoadRow) : Prop :=
  (|r.start_lat - cur.end_lat| < EPSILON_STRETCH ∧
   |r.start_lng - cur.end_lng| < EPSILON_STRETCH ∧
   |r.end_lat - cur.start_lat| < EPSILON_STRETCH ∧
   |r.end_lng - cur.start_lng| < EPSILON_STRETCH) ∨
  (|r.start_lat - cur.start_lat| < EPSILON_STRETCH ∧
   |r.start_lng - cur.start_lng| < EPSILON_STRETCH ∧
   |r.end_lat - cur.end_lat| < EPSILON_STRETCH ∧
   |r.end_lng - cur.end_lng| < EPSILON_STRETCH)

instance (r cur : RoadRow) : Decidable (gsrMirror r cur) := by
  unfold gsrMirror; infer_instance

/-- Orientation rule of `find_next_road`: forward continuation requires the
candidate's start (and not its end) at the target; backward the reverse. -/
def gsrOriented (dir : Direction) (tlat tlng : ℚ) (r : RoadRow) : Prop :=
  match dir with
  | .forward =>
    (|r.start_lat - tlat| < EPSILON_STRETCH ∧
     |r.start_lng - tlng| < EPSILON_STRETCH) ∧
    ¬(|r.end_lat - tlat| < EPSILON_STRETCH ∧
      |r.end_lng - tlng| < EPSILON_STRETCH)
  | .backward =>
    (|r.end_lat - tlat| < EPSILON_STRETCH ∧
     |r.end_lng - tlng| < EPSILON_STRETCH) ∧
    ¬(|r.start_lat - tlat| < EPSILON_STRETCH ∧
      |r.start_lng - tlng| < EPSILON_STRETCH)

instance (dir : Direction) (tlat tlng : ℚ) (r : RoadRow) :
    Decidable (gsrOriented dir tlat tlng r) := by
  unfold gsrOriented
  match dir with
  | .forward => exact inferInstanceAs (Decidable (_ ∧ _))
  | .backward => exact inferInstanceAs (Decidable (_ ∧ _))

/-- `routes/stretch_roads.py::find_next_road`: SQL candidate fetch around
the target endpoint, then the orientation filter (mirror roads and
same-endpoint matches rejected); a road is returned only when exactly one
valid candidate remains.  An empty priority list short-circuits to
`none`. -/
def find_next_road (db : List RoadRow) (current : RoadRow) (pid : ℤ)
    (priority_list : List String) (exclude : List ℤ) (dir : Direction) :
    Option RoadRow :=
  match priority_list with
  | [] => none
  | p :: tl =>
    let tlat := match dir with
      | .forward => current.end_lat
      | .backward => current.start_lat
    let tlng := match dir with
      | .forward => current.end_lng
      | .backward => current.start_lng
    let candidates := filterP (fun r : RoadRow =>
      r.project_id = pid ∧ r.deleted = false ∧ r.priority ∈ p :: tl ∧
      r.id ∉ exclude ∧ r.is_enabled = true ∧
      ((|r.start_lat - tlat| < EPSILON_STRETCH ∧
        |r.start_lng - tlng| < EPSILON_STRETCH) ∨
       (|r.end_lat - tlat| < EPSILON_STRETCH ∧
        |r.end_lng - tlng| < EPSILON_STRETCH))) db
    let valid := filterP (fun r : RoadRow =>
      ¬gsrMirror r current ∧ gsrOriented dir tlat tlng r) candidates
    match valid with
    | [v] => some v
    | _ => none

/-- The forward `while True` loop of `get_stretched_road`: repeatedly append
`find_next_road` results.  Fuel bounds the iterations; each one adds a new
road id to the exclusion set, so the database size suffices. -/
def gsrChain (db : List RoadRow) (pid : ℤ) (priority_list : List String)
    (dir : Direction) :
    ℕ → RoadRow → List ℤ → List RoadRow × List ℤ
  | 0, _, selected => ([], selected)
  | Nat.succ fuel, current, selected =>
    match find_next_road db current pid priority_list selected dir with
    | none => ([], selected)
    | some nr =>
      let res := gsrChain db pid priority_list dir fuel nr (selected ++ [nr.id])
      (nr :: res.1, res.2)

/-- First polyline coordinate (`get_first_coord`, `[lng, lat]`). -/
def gsrFirstCoord (r : RoadRow) : Option Pt := r.polyline.bind List.head?

/-- Last polyline coordinate (`get_last_coord`). -/
def gsrLastCoord (r : RoadRow) : Option Pt := r.polyline.bind List.getLast?

/-- An `endpoints` entry of the `get_stretched_road` response: always typed
`'intersection'` by the source; coordinates fall back to the road row's
stored endpoint columns. -/
structure GsrEndpoint where
  lat : ℚ
  lng : ℚ
  kind : EndType
deriving DecidableEq

/-- `data` part of a successful `get_stretched_road` response.  Lengths are
reported unrounded (the source's `round(x, 2)` is display-level float
formatting). -/
structure GsrData where
  stretched_roads : List ApiRoad
  total_length : ℚ
  total_count : ℕ
  ep_start : GsrEndpoint
  ep_end : GsrEndpoint
  initial_road_id : ℤ
deriving DecidableEq

/-- Response of `get_stretched_road`: an unknown road id produces
`success = false` plus a message — a plain return value, not a raised
error. -/
structure GsrResponse where
  success : Bool
  message : Option String
  data : Option GsrData
deriving DecidableEq

/-- Endpoint-match test used while orienting the chain ends
(`abs(a[0]-b[0]) < EPSILON and abs(a[1]-b[1]) < EPSILON` on `[lng, lat]`
pairs). -/
def gsrCoordClose (a b : Pt) : Prop :=
  |a.1 - b.1| < EPSILON_STRETCH ∧ |a.2 - b.2| < EPSILON_STRETCH

instance (a b : Pt) : Decidable (gsrCoordClose a b) := by
  unfold gsrCoordClose; infer_instance

/-- `routes/stretch_roads.py::get_stretched_road`: fetch the seed road
(`success=false` "not found" response when absent), grow the chain forward
then backward with `find_next_road`, format the chain, and derive the chain
endpoints from the first/last polylines, orienting by comparing against the
neighbouring road. -/
def get_stretched_road (db : List RoadRow) (road_id pid : ℤ)
    (priority_list : List String) : GsrResponse :=
  match firstSuchThat (fun r : RoadRow =>
      r.id = road_id ∧ r.project_id = pid ∧ r.deleted = false) db with
  | none =>
    ⟨false, some ("Road ID " ++ toString road_id ++ " not found"), none⟩
  | some initial =>
    let fwd := gsrChain db pid priority_list .forward db.length initial
      [road_id]
    let bwd := gsrChain db pid priority_list .backward db.length initial fwd.2
    let chain := bwd.1.reverse ++ [initial] ++ fwd.1
    let formatted := (chain.enum).map (fun ri =>
      (⟨ri.2.id, ri.2.polyline, ri.2.length, ri.2.name, ri.2.is_enabled,
        ri.1⟩ : ApiRoad))
    let total_length := (chain.map (fun r => r.length)).sum
    let firstRoad := chain.headD initial
    let lastRoad := chain.getLastD initial
    let firstCoord := gsrFirstCoord firstRoad
    let firstLastCoord := gsrLastCoord firstRoad
    let startCoord : Option Pt :=
      if 1 < chain.length then
        match firstLastCoord, gsrFirstCoord (chain[1]?.getD initial) with
        | some fl, some sf =>
          if gsrCoordClose fl sf then firstCoord else some fl
        | _, _ =>
          match firstCoord with
          | some c => some c
          | none => some (firstRoad.start_lng, firstRoad.start_lat)
      else
        match firstCoord with
        | some c => some c
        | none => some (firstRoad.start_lng, firstRoad.start_lat)
    let lastCoord := gsrLastCoord lastRoad
    let lastFirstCoord := gsrFirstCoord lastRoad
    let endCoord : Option Pt :=
      if 1 < chain.length then
        match gsrLastCoord ((chain.drop (chain.length - 2)).headD initial),
            lastFirstCoord with
        | some sl, some lf =>
          if gsrCoordClose sl lf then lastCoord else some lf
        | _, _ =>
          match lastCoord with
          | some c => some c
          | none => some (lastRoad.end_lng, lastRoad.end_lat)
      else
        match lastCoord with
        | some c => some c
        | none => some (lastRoad.end_lng, lastRoad.end_lat)
    ⟨true, none, some
      ⟨formatted, total_length, chain.length,
       ⟨(startCoord.map Prod.snd).getD firstRoad.start_lat,
        (startCoord.map Prod.fst).getD firstRoad.start_lng, .intersection⟩,
       ⟨(endCoord.map Prod.snd).getD lastRoad.end_lat,
        (endCoord.map Prod.fst).getD lastRoad.end_lng, .intersection⟩,
       road_id⟩⟩

/-!
## Basic lemmas about the list helpers
-/

theorem mem_filterP (p : α → Prop) [DecidablePred p] (l : List α) (x : α) :
    x ∈ filterP p l ↔ x ∈ l ∧ p x := by
  induction l with
  | nil => simp [filterP]
  | cons y tl ih =>
    by_cases hy : p y
    · rw [filterP, if_pos hy]
      constructor
      · intro h
        rcases List.mem_cons.1 h with rfl | h
        · exact ⟨List.mem_cons_self _ _, hy⟩
        · rcases ih.1 h with ⟨h1, h2⟩
          exact ⟨List.mem_cons_of_mem _ h1, h2⟩
      · rintro ⟨h1, h2⟩
        rcases List.mem_cons.1 h1 with rfl | h1
        · exact List.mem_cons_self _ _
        · exact List.mem_cons_of_mem _ (ih.2 ⟨h1, h2⟩)
    · rw [filterP, if_neg hy, ih]
      constructor
      · rintro ⟨h1, h2⟩
        exact ⟨List.mem_cons_of_mem _ h1, h2⟩
      · rintro ⟨h1, h2⟩
        rcases List.mem_cons.1 h1 with rfl | h1
        · exact absurd h2 hy
        · exact ⟨h1, h2⟩

theorem filterP_sublist (p : α → Prop) [DecidablePred p] (l : List α) :
    (filterP p l).Sublist l := by
  induction l with
  | nil => exact List.Sublist.refl _
  | cons y tl ih =>
    by_cases hy : p y
    · rw [filterP, if_pos hy]; exact ih.cons_cons y
    · rw [filterP, if_neg hy]; exact ih.cons y

theorem firstSuchThat_eq_some (p : α → Prop) [DecidablePred p] (l : List α)
    (x : α) (h : firstSuchThat p l = some x) : x ∈ l ∧ p x := by
  induction l with
  | nil => simp [firstSuchThat] at h
  | cons y tl ih =>
    by_cases hy : p y
    · simp [firstSuchThat, hy] at h
      subst h; exact ⟨List.mem_cons_self _ _, hy⟩
    · simp [firstSuchThat, hy] at h
      rcases ih h with ⟨h1, h2⟩
      exact ⟨List.mem_cons_of_mem _ h1, h2⟩

theorem insertByKey_perm (key : α → ℤ) (x : α) (l : List α) :
    (insertByKey key x l).Perm (x :: l) := by
  induction l with
  | nil => simp [insertByKey]
  | cons y tl ih =>
    by_cases hy : key x ≤ key y <;> simp [insertByKey, hy]
    exact (ih.cons y).trans (List.Perm.swap x y tl)

theorem sortByKey_perm (key : α → ℤ) (l : List α) :
    (sortByKey key l).Perm l := by
  induction l with
  | nil => simp [sortByKey]
  | cons y tl ih =>
    simpa [sortByKey] using
      ((insertByKey_perm key y (sortByKey key tl)).trans (ih.cons y))

theorem mem_sortByKey (key : α → ℤ) (l : List α) (x : α) :
    x ∈ sortByKey key l ↔ x ∈ l :=
  (sortByKey_perm key l).mem_iff

theorem mem_dedupFirstAux (l seen : List ℤ) (x : ℤ) :
    x ∈ dedupFirstAux l seen ↔ x ∈ l ∧ x ∉ seen := by
  induction l generalizing seen with
  | nil => simp [dedupFirstAux]
  | cons y tl ih =>
    by_cases hy : y ∈ seen
    · rw [dedupFirstAux, if_pos hy, ih]
      constructor
      · rintro ⟨h1, h2⟩
        exact ⟨List.mem_cons_of_mem _ h1, h2⟩
      · rintro ⟨h1, h2⟩
        rcases List.mem_cons.1 h1 with rfl | h1
        · exact absurd hy h2
        · exact ⟨h1, h2⟩
    · rw [dedupFirstAux, if_neg hy]
      constructor
      · intro h
        rcases List.mem_cons.1 h with rfl | h
        · exact ⟨List.mem_cons_self _ _, hy⟩
        · rcases (ih _).1 h with ⟨h1, h2⟩
          refine ⟨List.mem_cons_of_mem _ h1, fun hs => h2 ?_⟩
          exact List.mem_cons_of_mem _ hs
      · rintro ⟨h1, h2⟩
        rcases List.mem_cons.1 h1 with rfl | h1
        · exact List.mem_cons_self _ _
        · by_cases hxy : x = y
          · subst hxy; exact List.mem_cons_self _ _
          · refine List.mem_cons_of_mem _ ((ih _).2 ⟨h1, fun hs => ?_⟩)
            rcases List.mem_cons.1 hs with h | h
            · exact hxy h
            · exact h2 h

theorem dedupFirstAux_nodup (l seen : List ℤ) :
    (dedupFirstAux l seen).Nodup := by
  induction l generalizing seen with
  | nil => simp [dedupFirstAux]
  | cons y tl ih =>
    by_cases hy : y ∈ seen
    · rw [dedupFirstAux, if_pos hy]; exact ih _
    · rw [dedupFirstAux, if_neg hy]
      refine List.nodup_cons.2 ⟨fun hmem => ?_, ih _⟩
      rcases (mem_dedupFirstAux _ _ _).1 hmem with ⟨_, hns⟩
      exact hns (List.mem_cons_self _ _)

theorem mem_setList (l : List ℤ) (x : ℤ) : x ∈ setList l ↔ x ∈ l := by
  rw [setList, mem_sortByKey, mem_dedupFirstAux]
  simp

theorem setList_nodup (l : List ℤ) : (setList l).Nodup :=
  ((sortByKey_perm _ _).nodup_iff).2 (dedupFirstAux_nodup l [])

/-!
## C5: termination and no-duplication of the SQL stretch traversal
-/

theorem traverse_linear_sql_length_le (db : List RoadRow) (pid : ℤ) (tol : ℚ)
    (prios : Option (List String)) (fuel : ℕ) (current : ℤ)
    (visited : List ℤ) :
    (traverse_linear_sql db pid tol prios fuel current visited).length ≤
      fuel := by
  induction fuel generalizing current visited with
  | zero => simp [traverse_linear_sql]
  | succ fuel ih =>
    rw [traverse_linear_sql]
    by_cases hv : current ∈ visited
    · simp [hv]
    · simp only [hv, if_false]
      split
      · simp
      · simpa using ih _ _

theorem traverse_linear_sql_not_mem_visited (db : List RoadRow) (pid : ℤ)
    (tol : ℚ) (prios : Option (List String)) (fuel : ℕ) (current : ℤ)
    (visited : List ℤ) (x : ℤ)
    (hx : x ∈ traverse_linear_sql db pid tol prios fuel current visited) :
    x ∉ visited := by
  induction fuel generalizing current visited with
  | zero => simp [traverse_linear_sql] at hx
  | succ fuel ih =>
    rw [traverse_linear_sql] at hx
    by_cases hv : current ∈ visited
    · simp [hv] at hx
    · simp only [hv, if_false] at hx
      split at hx
      · simp at hx; subst hx; exact hv
      · rcases List.mem_cons.1 hx with rfl | hx'
        · exact hv
        · intro hmem
          exact ih _ _ hx' (List.mem_cons_of_mem _ hmem)

theorem traverse_linear_sql_nodup (db : List RoadRow) (pid : ℤ) (tol : ℚ)
    (prios : Option (List String)) (fuel : ℕ) (current : ℤ)
    (visited : List ℤ) :
    (traverse_linear_sql db pid tol prios fuel current visited).Nodup := by
  induction fuel generalizing current visited with
  | zero => simp [traverse_linear_sql]
  | succ fuel ih =>
    rw [traverse_linear_sql]
    by_cases hv : current ∈ visited
    · simp [hv]
    · simp only [hv, if_false]
      split
      · simp
      · refine List.nodup_cons.2 ⟨fun hmem => ?_, ih _ _⟩
        have := traverse_linear_sql_not_mem_visited db pid tol prios fuel _ _ _
          hmem
        simp at this

theorem stretchBackward_not_mem_seed (db : List RoadRow) (road_id pid : ℤ)
    (maxDepth : ℕ) (tol : ℚ) (prios : Option (List String)) (x : ℤ)
    (hx : x ∈ stretchBackward db road_id pid maxDepth tol prios) :
    ¬x = road_id := by
  rw [stretchBackward] at hx
  split at hx
  · split at hx
    · intro h
      have := traverse_linear_sql_not_mem_visited db pid tol prios maxDepth _
        _ _ hx
      simp [h] at this
    · simp at hx
  · simp at hx

theorem stretchBackward_nodup (db : List RoadRow) (road_id pid : ℤ)
    (maxDepth : ℕ) (tol : ℚ) (prios : Option (List String)) :
    (stretchBackward db road_id pid maxDepth tol prios).Nodup := by
  rw [stretchBackward]
  split
  · split
    · exact traverse_linear_sql_nodup db pid tol prios maxDepth _ _
    · simp
  · simp

theorem stretchBackward_length_le (db : List RoadRow) (road_id pid : ℤ)
    (maxDepth : ℕ) (tol : ℚ) (prios : Option (List String)) :
    (stretchBackward db road_id pid maxDepth tol prios).length ≤ maxDepth := by
  rw [stretchBackward]
  split
  · split
    · exact traverse_linear_sql_length_le db pid tol prios maxDepth _ _
    · simp
  · simp

theorem stretchForward_not_mem_visited (db : List RoadRow) (road_id pid : ℤ)
    (maxDepth : ℕ) (tol : ℚ) (prios : Option (List String)) (v : List ℤ)
    (x : ℤ) (hx : x ∈ stretchForward db road_id pid maxDepth tol prios v) :
    x ∉ v := by
  rw [stretchForward] at hx
  split at hx
  · split at hx
    · exact traverse_linear_sql_not_mem_visited db pid tol prios maxDepth _ _
        _ hx
    · simp at hx
  · simp at hx

theorem stretchForward_nodup (db : List RoadRow) (road_id pid : ℤ)
    (maxDepth : ℕ) (tol : ℚ) (prios : Option (List String)) (v : List ℤ) :
    (stretchForward db road_id pid maxDepth tol prios v).Nodup := by
  rw [stretchForward]
  split
  · split
    · exact traverse_linear_sql_nodup db pid tol prios maxDepth _ _
    · simp
  · simp

theorem stretchForward_length_le (db : List RoadRow) (road_id pid : ℤ)
    (maxDepth : ℕ) (tol : ℚ) (prios : Option (List String)) (v : List ℤ) :
    (stretchForward db road_id pid maxDepth tol prios v).length ≤ maxDepth := by
  rw [stretchForward]
  split
  · split
    · exact traverse_linear_sql_length_le db pid tol prios maxDepth _ _
    · simp
  · simp

theorem stretchSequence_nodup (db : List RoadRow) (road_id pid : ℤ)
    (maxDepth : ℕ) (tol : ℚ) (prios : Option (List String)) :
    (stretchSequence db road_id pid maxDepth tol prios).Nodup := by
  rw [stretchSequence]
  have hbn := stretchBackward_nodup db road_id pid maxDepth tol prios
  have hfn := stretchForward_nodup db road_id pid maxDepth tol prios
    (road_id :: stretchBackward db road_id pid maxDepth tol prios)
  rw [List.nodup_append]
  refine ⟨?_, hfn, ?_⟩
  · rw [List.nodup_append]
    refine ⟨List.nodup_reverse.2 hbn, List.nodup_singleton _, ?_⟩
    intro a ha hb
    rcases List.mem_singleton.1 hb with rfl
    exact stretchBackward_not_mem_seed db a pid maxDepth tol prios _
      (List.mem_reverse.1 ha) rfl
  · intro a ha hb
    have hnv := stretchForward_not_mem_visited db road_id pid maxDepth tol
      prios _ _ hb
    rcases List.mem_append.1 ha with ha | ha
    · exact hnv (List.mem_cons_of_mem _ (List.mem_reverse.1 ha))
    · rcases List.mem_singleton.1 ha with rfl
      exact hnv (List.mem_cons_self _ _)

theorem filterMap_firstSuchThat_ids_sublist (rows : List RoadRow)
    (seq : List ℤ) :
    ((seq.filterMap (fun s =>
        firstSuchThat (fun r : RoadRow => r.id = s) rows)).map
      (fun r => r.id)).Sublist seq := by
  induction seq with
  | nil => simp
  | cons s tl ih =>
    rw [List.filterMap_cons]
    cases h : firstSuchThat (fun r : RoadRow => r.id = s) rows with
    | none => exact ih.cons s
    | some r =>
      have hr := (firstSuchThat_eq_some _ _ _ h).2
      simp only [List.map_cons, hr]
      exact ih.cons_cons s

/-- C5: for every seed id, database (cyclic configurations included),
tolerance and finite `max_depth` bound, both traversal directions stop
within `max_depth` hops and the assembled stretch contains no road id more
than once (consequently neither does the returned ordered road list). -/
theorem C5_stretch_termination_no_duplicates (db : List RoadRow)
    (road_id pid : ℤ) (maxHops : ℕ) (tol : ℚ)
    (prios : Option (List String)) :
    (stretchBackward db road_id pid maxHops tol prios).length ≤ maxHops ∧
    (stretchForward db road_id pid maxHops tol prios
        (road_id :: stretchBackward db road_id pid maxHops tol prios)).length
      ≤ maxHops ∧
    (stretchSequence db road_id pid maxHops tol prios).Nodup ∧
    ((stretch_road_sql db road_id pid maxHops tol prios).roads.map
        (fun r => r.id)).Nodup := by
  refine ⟨stretchBackward_length_le _ _ _ _ _ _,
    stretchForward_length_le _ _ _ _ _ _ _,
    stretchSequence_nodup _ _ _ _ _ _, ?_⟩
  rw [stretch_road_sql]
  exact (filterMap_firstSuchThat_ids_sublist _ _).nodup
    (stretchSequence_nodup db road_id pid maxHops tol prios)

/-!
## C10: the hard-coded continuity-report fields
-/

/-- C10: for every road-id list, project and tolerance,
`validate_continuity_sql` returns `gaps = []` and `total_length = 0`; gap
locations and the aggregate length are never computed from the geometry
(both are hard-coded in every return branch of the source, marked TODO). -/
theorem C10_validate_continuity_constant_fields (db : List RoadRow)
    (roadIds : List ℤ) (pid : ℤ) (tol : ℚ) :
    (validate_continuity_sql db roadIds pid tol).gaps = [] ∧
    (validate_continuity_sql db roadIds pid tol).total_length = 0 := by
  rcases roadIds with _ | ⟨a, _ | ⟨b, tl⟩⟩ <;>
    simp [validate_continuity_sql]

/-!
## C2: the suggested order of `validate_continuity_sql`
-/

theorem find_path_order_not_mem (m : List (ℤ × List ℤ)) (fuel : ℕ)
    (start : ℤ) (visited : List ℤ) (x : ℤ)
    (hx : x ∈ (find_path_order m fuel start visited).1) : x ∉ visited := by
  induction fuel generalizing start visited with
  | zero => simp [find_path_order] at hx
  | succ fuel ih =>
    rw [find_path_order] at hx
    by_cases hv : start ∈ visited
    · simp [hv] at hx
    · simp only [hv, if_false] at hx
      split at hx
      · simp at hx; subst hx; exact hv
      · rcases List.mem_cons.1 hx with rfl | hx'
        · exact hv
        · intro hmem
          exact ih _ _ hx' (List.mem_cons_of_mem _ hmem)

theorem find_path_order_nodup (m : List (ℤ × List ℤ)) (fuel : ℕ)
    (start : ℤ) (visited : List ℤ) :
    (find_path_order m fuel start visited).1.Nodup := by
  induction fuel generalizing start visited with
  | zero => simp [find_path_order]
  | succ fuel ih =>
    rw [find_path_order]
    by_cases hv : start ∈ visited
    · simp [hv]
    · simp only [hv, if_false]
      split
      · simp
      · refine List.nodup_cons.2 ⟨fun hmem => ?_, ih _ _⟩
        have := find_path_order_not_mem m fuel _ _ _ hmem
        simp at this

theorem find_path_order_mem_closed (m : List (ℤ × List ℤ)) (S : List ℤ)
    (hcl : ∀ k n, n ∈ mapGet m k → n ∈ S) (fuel : ℕ) (start : ℤ)
    (visited : List ℤ) (hs : start ∈ S) (x : ℤ)
    (hx : x ∈ (find_path_order m fuel start visited).1) : x ∈ S := by
  induction fuel generalizing start visited with
  | zero => simp [find_path_order] at hx
  | succ fuel ih =>
    rw [find_path_order] at hx
    by_cases hv : start ∈ visited
    · simp [hv] at hx
    · simp only [hv, if_false] at hx
      split at hx
      · simp at hx; subst hx; exact hs
      · rename_i nb hnb
        rcases List.mem_cons.1 hx with rfl | hx'
        · exact hs
        · have hnb' := firstSuchThat_eq_some _ _ _ hnb
          exact ih _ _ (hcl start nb hnb'.1) hx'

theorem find_path_order_head (m : List (ℤ × List ℤ)) (fuel : ℕ) (start : ℤ)
    (visited : List ℤ) (hf : 0 < fuel) (hv : start ∉ visited) :
    (find_path_order m fuel start visited).1.head? = some start := by
  match fuel, hf with
  | Nat.succ fuel, _ =>
    rw [find_path_order]
    simp only [hv, if_false]
    split <;> simp

theorem connectivity_map_values_mem (db : List RoadRow) (ids : List ℤ)
    (pid : ℤ) (tol : ℚ) (k n : ℤ)
    (hn : n ∈ mapGet (connectivity_map db ids pid tol) k) : n ∈ ids := by
  rw [mapGet] at hn
  cases h : firstSuchThat (fun e : ℤ × List ℤ => e.1 = k)
      (connectivity_map db ids pid tol).reverse with
  | none => rw [h] at hn; simp at hn
  | some e =>
    rw [h] at hn
    have he := (firstSuchThat_eq_some _ _ _ h).1
    have he' := List.mem_reverse.1 he
    rw [connectivity_map] at he'
    rcases List.mem_map.1 he' with ⟨rid, _, heq⟩
    subst heq
    simp only at hn
    rcases (mem_filterP _ _ _).1 ((mem_setList _ _).1 hn) with ⟨_, hmem⟩
    exact hmem

/-- C2 (amended): when `validate_continuity_sql` reports a selection of
`n ≥ 2` ids as continuous, the suggested order is produced by the
depth-first walk of `_find_path_order` started at the FIRST id of the
request list (`road_ids[0]`), following at each step the first unvisited
neighbour of the adjacency list; consequently it begins with `road_ids[0]`,
contains no id twice, and contains only ids of the selection — but it is
not in general an ordering of all `n` ids (see the counterexample). -/
theorem C2_amended_suggested_order_from_first_id (db : List RoadRow)
    (roadIds : List ℤ) (pid : ℤ) (tol : ℚ) (h2 : 2 ≤ roadIds.length)
    (hc : (validate_continuity_sql db roadIds pid tol).is_continuous = true) :
    (validate_continuity_sql db roadIds pid tol).suggested_order =
      (find_path_order (connectivity_map db roadIds pid tol)
        roadIds.length (roadIds.headD 0) []).1 ∧
    (validate_continuity_sql db roadIds pid tol).suggested_order.head? =
      roadIds.head? ∧
    (validate_continuity_sql db roadIds pid tol).suggested_order.Nodup ∧
    ∀ x ∈ (validate_continuity_sql db roadIds pid tol).suggested_order,
      x ∈ roadIds := by
  rcases roadIds with _ | ⟨a, _ | ⟨b, tl⟩⟩
  · simp at h2
  · simp at h2
  · by_cases hcont :
      (bfsLoop (connectivity_map db (a :: b :: tl) pid tol)
        ((a :: b :: tl).length + 1) [a] [a]).length = (a :: b :: tl).length
    · have horder :
          (validate_continuity_sql db (a :: b :: tl) pid tol).suggested_order
            = (find_path_order (connectivity_map db (a :: b :: tl) pid tol)
                (a :: b :: tl).length a []).1 := by
        simp only [validate_continuity_sql]
        rw [if_pos hcont]
      refine ⟨by simpa using horder, ?_, ?_, ?_⟩
      · rw [horder]
        rw [find_path_order_head _ _ _ _ (by simp) (by simp)]
        simp
      · rw [horder]
        exact find_path_order_nodup _ _ _ _
      · intro x hx
        rw [horder] at hx
        exact find_path_order_mem_closed _ (a :: b :: tl)
          (fun k n hn => connectivity_map_values_mem db _ pid tol k n hn)
          _ _ _ (List.mem_cons_self _ _) x hx
    · exfalso
      apply hcont
      simp only [validate_continuity_sql] at hc
      simpa using hc

theorem dbLine_conn1 : get_road_connections_sql dbLine 1 1 (1/1000) none =
    ⟨1, [], [⟨2, .atStart, 0⟩], false, 1⟩ := by
  norm_num [get_road_connections_sql, endpointConnections, dedupConns,
    dedupConnsAux, setList, dedupFirstAux, sortByKey, insertByKey, filterP,
    priorityOk, firstSuchThat, detect_bidirectional_pairs_at_endpoint,
    mirrorOpt, mirrorRows, dbLine, mkRoad]

theorem dbLine_conn2 : get_road_connections_sql dbLine 2 1 (1/1000) none =
    ⟨2, [⟨1, .atEnd, 0⟩], [⟨3, .atStart, 0⟩], false, 2⟩ := by
  norm_num [get_road_connections_sql, endpointConnections, dedupConns,
    dedupConnsAux, setList, dedupFirstAux, sortByKey, insertByKey, filterP,
    priorityOk, firstSuchThat, detect_bidirectional_pairs_at_endpoint,
    mirrorOpt, mirrorRows, dbLine, mkRoad]

theorem dbLine_conn3 : get_road_connections_sql dbLine 3 1 (1/1000) none =
    ⟨3, [⟨2, .atEnd, 0⟩], [], false, 1⟩ := by
  norm_num [get_road_connections_sql, endpointConnections, dedupConns,
    dedupConnsAux, setList, dedupFirstAux, sortByKey, insertByKey, filterP,
    priorityOk, firstSuchThat, detect_bidirectional_pairs_at_endpoint,
    mirrorOpt, mirrorRows, dbLine, mkRoad]

theorem dbLine_validate_213 :
    validate_continuity_sql dbLine [2, 1, 3] 1 (1/1000) =
      ⟨true, [], [2, 1], 0, 3, 3⟩ := by
  norm_num [validate_continuity_sql, connectivity_map, dbLine_conn1,
    dbLine_conn2, dbLine_conn3, setList, dedupFirstAux, sortByKey,
    insertByKey, filterP, firstSuchThat, mapGet, bfsLoop, find_path_order]

/-- C2 (counterexample): the three-road line 1—2—3 requested in the order
`[2, 1, 3]` is reported continuous, yet the suggested order is `[2, 1]` —
the DFS starts at `road_ids[0] = 2` (the middle of the path, not a
degree-≤-1 endpoint) and stops after one hop, so the "linear ordering of
all n ids (length n)" promised by the claim does not hold. -/
theorem C2_counterexample_order_not_all_ids :
    (validate_continuity_sql dbLine [2, 1, 3] 1 (1/1000)).is_continuous
        = true ∧
    (validate_continuity_sql dbLine [2, 1, 3] 1 (1/1000)).suggested_order
        = [2, 1] ∧
    ¬((validate_continuity_sql dbLine [2, 1, 3] 1 (1/1000)).suggested_order.length
        = 3) := by
  rw [dbLine_validate_213]
  refine ⟨rfl, rfl, by decide⟩

/-- Witness for `C2_amended_suggested_order_from_first_id` at the concrete
line database and the request `[2, 1, 3]`. -/
theorem C2_amended_witness :
    (validate_continuity_sql dbLine [2, 1, 3] 1 (1/1000)).suggested_order.head?
        = some 2 ∧
    (validate_continuity_sql dbLine [2, 1, 3] 1 (1/1000)).suggested_order.Nodup := by
  have h := C2_amended_suggested_order_from_first_id dbLine [2, 1, 3] 1
    (1/1000) (by norm_num) (by rw [dbLine_validate_213])
  exact ⟨h.2.1, h.2.2.1⟩

/-!
## C4: endpoint classification of the stretch result
-/

/-- Seed road 1 = (0,0)→(1,0) plus a bidirectional pair at its start:
road 2 = (−1,0)→(0,0) and its exact mirror road 3 = (0,0)→(−1,0). -/
def dbMirror : List RoadRow :=
  [mkRoad 1 0 0 1 0, mkRoad 2 (-1) 0 0 0, mkRoad 3 0 0 (-1) 0]

theorem dbMirror_conn1 : get_road_connections_sql dbMirror 1 1 (1/1000) none =
    ⟨1, [⟨2, .atEnd, 0⟩, ⟨3, .atStart, 0⟩], [], false, 2⟩ := by
  norm_num [get_road_connections_sql, endpointConnections, dedupConns,
    dedupConnsAux, setList, dedupFirstAux, sortByKey, insertByKey, filterP,
    priorityOk, firstSuchThat, detect_bidirectional_pairs_at_endpoint,
    mirrorOpt, mirrorRows, dbMirror, mkRoad, List.cons_ne_nil]

theorem dbMirror_usr : stretchUniqueStartRoads dbMirror 1 1 (1/1000) none =
    [2, 3] := by
  norm_num [stretchUniqueStartRoads, dbMirror_conn1, setList, dedupFirstAux,
    sortByKey, insertByKey, filterP]

theorem dbMirror_pairs23 :
    detect_bidirectional_pairs_at_endpoint dbMirror [2, 3] 1 (1/1000) =
      [[2, 3]] := by
  norm_num [detect_bidirectional_pairs_at_endpoint, filterP, firstSuchThat,
    mirrorOpt, mirrorRows, dbMirror, mkRoad, List.cons_ne_nil]

theorem dbMirror_group_count :
    stretchUniqueStartCount dbMirror 1 1 (1/1000) none = 1 := by
  norm_num [stretchUniqueStartCount, dbMirror_conn1, setList, dedupFirstAux,
    sortByKey, insertByKey, filterP, dbMirror_pairs23]

/-- C4 (counterexample): at the seed's start endpoint the connected
neighbours `{2, 3}` collapse into a single bidirectional group (group count
1, so by the claim the endpoint must not be classified an intersection), yet
`stretch_road_sql` labels that endpoint `intersection`, because the label is
derived from the raw id count `|{2, 3}| = 2 > 1` without collapsing. -/
theorem C4_counterexample_mirror_pair_intersection :
    stretchUniqueStartCount dbMirror 1 1 (1/1000) none = 1 ∧
    ¬(1 < stretchUniqueStartCount dbMirror 1 1 (1/1000) none) ∧
    (stretch_road_sql dbMirror 1 1 5 (1/1000) none).ep_start.kind =
      EndType.intersection := by
  refine ⟨dbMirror_group_count, by rw [dbMirror_group_count]; decide, ?_⟩
  simp only [stretch_road_sql]
  rw [dbMirror_usr]
  norm_num

/-- C4 (amended): the stretch endpoints are classified from the RAW
per-endpoint id counts (`start_road_ids` minus the roads touching the seed
at both endpoints), with no bidirectional-group collapsing: the label is
`intersection` exactly when that raw count exceeds 1 and `dead_end`
otherwise — including when the count is exactly 1.  Group collapsing
(`unique_start_count`) is used only to decide whether to traverse in that
direction. -/
theorem C4_amended_raw_count_classification (db : List RoadRow)
    (road_id pid : ℤ) (maxDepth : ℕ) (tol : ℚ)
    (prios : Option (List String)) :
    ((stretch_road_sql db road_id pid maxDepth tol prios).ep_start.kind =
        EndType.intersection ↔
      1 < (stretchUniqueStartRoads db road_id pid tol prios).length) ∧
    ((stretch_road_sql db road_id pid maxDepth tol prios).ep_start.kind =
        EndType.dead_end ↔
      ¬1 < (stretchUniqueStartRoads db road_id pid tol prios).length) ∧
    ((stretch_road_sql db road_id pid maxDepth tol prios).ep_end.kind =
        EndType.intersection ↔
      1 < (stretchUniqueEndRoads db road_id pid tol prios).length) ∧
    ((stretch_road_sql db road_id pid maxDepth tol prios).ep_end.kind =
        EndType.dead_end ↔
      ¬1 < (stretchUniqueEndRoads db road_id pid tol prios).length) := by
  simp only [stretch_road_sql]
  by_cases hs : 1 < (stretchUniqueStartRoads db road_id pid tol prios).length
    <;> by_cases he : 1 < (stretchUniqueEndRoads db road_id pid tol prios).length
    <;> simp [hs, he]

/-!
## C3 and C8: `are_roads_connected`
-/

/-- C3 (counterexample): for the degenerate pair
road1 = [(0,0),(5,0)], road2 = [(3,0),(0,0)] at tolerance 4, both the
start–start pair (distance 3) and the start–end pair (distance 0) match,
yet the function reports `start-start` with distance 3 — not the matching
pair with the smallest distance. -/
theorem C3_counterexample_not_smallest_distance :
    (are_roads_connected dTaxi [((0 : ℚ), 0), (5, 0)] [((3 : ℚ), 0), (0, 0)]
        4).connection_type = some CPair.ss ∧
    (are_roads_connected dTaxi [((0 : ℚ), 0), (5, 0)] [((3 : ℚ), 0), (0, 0)]
        4).distance = some 3 ∧
    dTaxi (0, 0) (3, 0) ≤ 4 ∧ dTaxi (0, 0) (0, 0) ≤ 4 ∧
    dTaxi (0, 0) (0, 0) < dTaxi (0, 0) (3, 0) := by
  refine ⟨?_, ?_, ?_, ?_, ?_⟩ <;>
    norm_num [are_roads_connected, firstSuchThat, dTaxi]

/-- C3 (amended): when several endpoint pairs lie within the tolerance,
`are_roads_connected` reports the FIRST matching pair in the fixed
enumeration order start-start, start-end, end-start, end-end, regardless of
the distances involved; the smallest distance plays no role in the
selection. -/
theorem C3_amended_first_matching_pair (d : Pt → Pt → ℚ) (s1 s2 : Pt)
    (r1 r2 : List Pt) (tol : ℚ) (h1 : ¬r1 = []) (h2 : ¬r2 = []) :
    are_roads_connected d (s1 :: r1) (s2 :: r2) tol =
      (let e1 := r1.getLastD s1
       let e2 := r2.getLastD s2
       if d s1 s2 ≤ tol then ⟨true, some .ss, some (d s1 s2), some s1⟩
       else if d s1 e2 ≤ tol then ⟨true, some .se, some (d s1 e2), some s1⟩
       else if d e1 s2 ≤ tol then ⟨true, some .es, some (d e1 s2), some e1⟩
       else if d e1 e2 ≤ tol then ⟨true, some .ee, some (d e1 e2), some e1⟩
       else ⟨false, none,
         some (min (d s1 s2) (min (d s1 e2) (min (d e1 s2) (d e1 e2)))),
         none⟩) := by
  have hl1 : ¬(s1 :: r1).length < 2 := by
    cases r1 with
    | nil => exact absurd rfl h1
    | cons a tl => simp
  have hl2 : ¬(s2 :: r2).length < 2 := by
    cases r2 with
    | nil => exact absurd rfl h2
    | cons a tl => simp
  rw [are_roads_connected, if_neg (by simp only [not_or]; exact ⟨hl1, hl2⟩)]
  simp only [firstSuchThat]
  by_cases c1 : d s1 s2 ≤ tol
    <;> by_cases c2 : d s1 (r2.getLast?.getD s2) ≤ tol
    <;> by_cases c3 : d (r1.getLast?.getD s1) s2 ≤ tol
    <;> by_cases c4 : d (r1.getLast?.getD s1) (r2.getLast?.getD s2) ≤ tol
    <;> simp [c1, c2, c3, c4, min_assoc]

/-- Witness for `C3_amended_first_matching_pair` at the counterexample
input: the start-start pair is reported because it is first in enumeration
order. -/
theorem C3_amended_witness :
    are_roads_connected dTaxi [((0 : ℚ), 0), (5, 0)] [((3 : ℚ), 0), (0, 0)] 4
      = ⟨true, some CPair.ss, some (dTaxi (0, 0) (3, 0)), some (0, 0)⟩ := by
  have h := C3_amended_first_matching_pair dTaxi (0, 0) (3, 0) [(5, 0)]
    [(0, 0)] 4 (by simp) (by simp)
  rw [h]
  norm_num [dTaxi]

/-- C8: swapping the two roads never changes the reported `connected` flag.
First part: for every symmetric distance kernel (the code's
`haversine_distance` is one), `are_roads_connected` reports the same
`connected` flag in both argument orders.  Second part: the haversine
formula of `spatial_helpers.py` (degree-to-radian conversion,
`a = sin²(Δlat/2) + cos·cos·sin²(Δlon/2)`, `2·asin(√a)·6371000`) is indeed
symmetric as a real-valued function. -/
theorem C8_connected_flag_symmetric :
    (∀ (d : Pt → Pt → ℚ), (∀ p q, d p q = d q p) →
      ∀ (road1 road2 : List Pt) (tol : ℚ),
        (are_roads_connected d road1 road2 tol).connected =
          (are_roads_connected d road2 road1 tol).connected) ∧
    (∀ lat1 lon1 lat2 lon2 : ℝ,
      2 * Real.arcsin (Real.sqrt
          (Real.sin ((lat2 * Real.pi / 180 - lat1 * Real.pi / 180) / 2) ^ 2 +
           Real.cos (lat1 * Real.pi / 180) * Real.cos (lat2 * Real.pi / 180) *
             Real.sin ((lon2 * Real.pi / 180 - lon1 * Real.pi / 180) / 2) ^ 2))
        * 6371000 =
      2 * Real.arcsin (Real.sqrt
          (Real.sin ((lat1 * Real.pi / 180 - lat2 * Real.pi / 180) / 2) ^ 2 +
           Real.cos (lat2 * Real.pi / 180) * Real.cos (lat1 * Real.pi / 180) *
             Real.sin ((lon1 * Real.pi / 180 - lon2 * Real.pi / 180) / 2) ^ 2))
        * 6371000) := by
  constructor
  · intro d hsym road1 road2 tol
    rcases road1 with _ | ⟨s1, r1⟩
    · simp [are_roads_connected]
    · rcases road2 with _ | ⟨s2, r2⟩
      · simp [are_roads_connected]
      · by_cases hg : (s1 :: r1).length < 2 ∨ (s2 :: r2).length < 2
        · simp only [are_roads_connected]
          rw [if_pos hg, if_pos (Or.symm hg)]
        · simp only [are_roads_connected]
          rw [if_neg hg, if_neg (fun h => hg (Or.symm h))]
          simp only [firstSuchThat,
            hsym s2 s1, hsym s2 (r1.getLastD s1),
            hsym (r2.getLastD s2) s1, hsym (r2.getLastD s2) (r1.getLastD s1)]
          by_cases c1 : d s1 s2 ≤ tol
            <;> by_cases c2 : d s1 (r2.getLast?.getD s2) ≤ tol
            <;> by_cases c3 : d (r1.getLast?.getD s1) s2 ≤ tol
            <;> by_cases c4 : d (r1.getLast?.getD s1) (r2.getLast?.getD s2) ≤ tol
            <;> simp [c1, c2, c3, c4]
  · intro lat1 lon1 lat2 lon2
    have hsin : ∀ a b : ℝ, Real.sin ((a - b) / 2) ^ 2 =
        Real.sin ((b - a) / 2) ^ 2 := by
      intro a b
      have h : (a - b) / 2 = -((b - a) / 2) := by ring
      rw [h, Real.sin_neg]
      ring
    rw [hsin (lat1 * Real.pi / 180) (lat2 * Real.pi / 180),
      hsin (lon1 * Real.pi / 180) (lon2 * Real.pi / 180),
      mul_comm (Real.cos (lat2 * Real.pi / 180))]

/-- Witness for `C8_connected_flag_symmetric`: the symmetric taxicab kernel
on a concrete road pair. -/
theorem C8_witness :
    (are_roads_connected dTaxi [((0 : ℚ), 0), (5, 0)] [((3 : ℚ), 0), (0, 0)]
        4).connected =
      (are_roads_connected dTaxi [((3 : ℚ), 0), (0, 0)] [((0 : ℚ), 0), (5, 0)]
        4).connected :=
  C8_connected_flag_symmetric.1 dTaxi
    (fun p q => by simp [dTaxi, abs_sub_comm]) [(0, 0), (5, 0)]
    [(3, 0), (0, 0)] 4

/-!
## C7: error behaviour of the stretch endpoints
-/

theorem filterP_eq_nil (p : α → Prop) [DecidablePred p] (l : List α)
    (h : ∀ x ∈ l, ¬p x) : filterP p l = [] := by
  induction l with
  | nil => rfl
  | cons y tl ih =>
    rw [filterP, if_neg (h y (List.mem_cons_self _ _))]
    exact ih (fun x hx => h x (List.mem_cons_of_mem _ hx))

theorem endpointConnections_nonpos_tol (db : List RoadRow) (tr : RoadRow)
    (tlat tlng tol : ℚ) (prios : Option (List String)) (h : tol ≤ 0) :
    endpointConnections db tr tlat tlng tol prios = [] := by
  rw [endpointConnections]
  have hrows : filterP (fun r : RoadRow =>
      r.project_id = tr.project_id ∧ ¬(r.id = tr.id) ∧ r.deleted = false ∧
      priorityOk prios r ∧
      ((|r.start_lat - tlat| < tol ∧ |r.start_lng - tlng| < tol) ∨
       (|r.end_lat - tlat| < tol ∧ |r.end_lng - tlng| < tol))) db = [] := by
    apply filterP_eq_nil
    rintro r - ⟨-, -, -, -, ⟨habs, -⟩ | ⟨habs, -⟩⟩ <;>
      exact absurd habs (not_lt.2 (h.trans (abs_nonneg _)))
  rw [hrows]
  rfl

theorem get_road_connections_nonpos_tol (db : List RoadRow) (rid pid : ℤ)
    (tol : ℚ) (prios : Option (List String)) (h : tol ≤ 0) :
    get_road_connections_sql db rid pid tol prios = ⟨rid, [], [], false, 0⟩ := by
  rw [get_road_connections_sql]
  cases hs : firstSuchThat (fun r : RoadRow =>
      r.id = rid ∧ r.project_id = pid ∧ r.deleted = false) db with
  | none => rfl
  | some tr =>
    simp only [endpointConnections_nonpos_tol db tr _ _ tol prios h]
    rfl

theorem stretchUniqueStartCount_nonpos_tol (db : List RoadRow) (rid pid : ℤ)
    (tol : ℚ) (prios : Option (List String)) (h : tol ≤ 0) :
    stretchUniqueStartCount db rid pid tol prios = 0 := by
  rw [stretchUniqueStartCount, get_road_connections_nonpos_tol db rid pid tol
    prios h]
  rfl

theorem stretchUniqueEndCount_nonpos_tol (db : List RoadRow) (rid pid : ℤ)
    (tol : ℚ) (prios : Option (List String)) (h : tol ≤ 0) :
    stretchUniqueEndCount db rid pid tol prios = 0 := by
  rw [stretchUniqueEndCount, get_road_connections_nonpos_tol db rid pid tol
    prios h]
  rfl

theorem stretchSequence_nonpos_tol (db : List RoadRow) (rid pid : ℤ)
    (maxDepth : ℕ) (tol : ℚ) (prios : Option (List String)) (h : tol ≤ 0) :
    stretchSequence db rid pid maxDepth tol prios = [rid] := by
  have hb : stretchBackward db rid pid maxDepth tol prios = [] := by
    rw [stretchBackward]
    rw [if_neg]
    intro hcond
    rw [stretchUniqueStartCount_nonpos_tol db rid pid tol prios h] at hcond
    exact absurd hcond.1 (by decide)
  have hf : ∀ v, stretchForward db rid pid maxDepth tol prios v = [] := by
    intro v
    rw [stretchForward]
    rw [if_neg]
    intro hcond
    rw [stretchUniqueEndCount_nonpos_tol db rid pid tol prios h] at hcond
    exact absurd hcond.1 (by decide)
  rw [stretchSequence, hb, hf]
  rfl

/-- Total-count projection of a stretch API result (0 for an error). -/
def stretchRespCount : Except ApiError StretchApiResponse → ℕ
  | .ok r => r.data.total_count
  | .error _ => 0

/-- C7 (amended): neither operation raises.  An unknown seed id makes
`get_stretched_road` RETURN a `success = false` response carrying the
"Road ID ... not found" message (no `NotFoundError` is raised), and a
negative tolerance is accepted unvalidated by `stretch_to_intersection`
(`tolerance_meters = 0` silently falls back to the default): the call
returns `.ok`, and under the resulting negative degree tolerance no
endpoint box test can succeed, so the stretch contains at most the seed
itself. -/
theorem C7_amended_no_raise (db : List RoadRow) (rid pid : ℤ)
    (prios : List String) (oprios : Option (List String)) (t : ℚ)
    (hseed : firstSuchThat (fun r : RoadRow =>
        r.id = rid ∧ r.project_id = pid ∧ r.deleted = false) db = none)
    (ht : t < 0) :
    get_stretched_road db rid pid prios =
      ⟨false, some ("Road ID " ++ toString rid ++ " not found"), none⟩ ∧
    (stretch_to_intersection db rid pid (some t) oprios).isOk = true ∧
    stretchRespCount (stretch_to_intersection db rid pid (some t) oprios)
      ≤ 1 := by
  have htol : t / 111000 ≤ 0 :=
    le_of_lt (div_neg_of_neg_of_pos ht (by norm_num))
  refine ⟨?_, ?_, ?_⟩
  · rw [get_stretched_road, hseed]
  · simp [stretch_to_intersection, Except.isOk, Except.toBool]
  · simp only [stretch_to_intersection, if_neg (ne_of_lt ht),
      stretchRespCount]
    rw [stretch_road_sql]
    simp only
    rw [stretchSequence_nonpos_tol db rid pid 100 (t / 111000) _ htol]
    calc (([rid].filterMap (fun s => firstSuchThat
            (fun r : RoadRow => r.id = s)
            (filterP (fun r : RoadRow => r.id ∈ [rid] ∧ r.project_id = pid)
              db).reverse)).length)
        ≤ [rid].length := List.length_filterMap_le _ _
      _ ≤ 1 := by simp

/-- C7 (counterexample): with an empty database (seed id 1 unknown) and
tolerance −5, `get_stretched_road` returns a not-found RESPONSE and
`stretch_to_intersection` succeeds; neither `NotFoundError` nor
`InvalidArgumentError` is raised. -/
theorem C7_counterexample_no_error_raised :
    get_stretched_road ([] : List RoadRow) 1 7 ["r"] =
      ⟨false, some ("Road ID " ++ toString (1 : ℤ) ++ " not found"), none⟩ ∧
    stretch_to_intersection ([] : List RoadRow) 1 7 (some (-5)) none ≠
      Except.error ApiError.notFoundError ∧
    stretch_to_intersection ([] : List RoadRow) 1 7 (some (-5)) none ≠
      Except.error ApiError.invalidArgumentError := by
  refine ⟨?_, ?_, ?_⟩
  · rw [get_stretched_road]
    rfl
  · simp [stretch_to_intersection]
  · simp [stretch_to_intersection]

/-- Witness for `C7_amended_no_raise` at the empty database, seed 1,
project 7, tolerance −5. -/
theorem C7_amended_witness :
    get_stretched_road ([] : List RoadRow) 1 7 ["r"] =
      ⟨false, some ("Road ID " ++ toString (1 : ℤ) ++ " not found"), none⟩ ∧
    (stretch_to_intersection ([] : List RoadRow) 1 7 (some (-5)) none).isOk
      = true :=
  have h := C7_amended_no_raise ([] : List RoadRow) 1 7 ["r"] none (-5) rfl
    (by norm_num)
  ⟨h.1, h.2.1⟩

/-!
## C9: `build_stretches` partitions the routes
-/

theorem head?_eq_some_mem (l : List α) (a : α) (h : l.head? = some a) :
    a ∈ l := by
  cases l with
  | nil => simp at h
  | cons x tl => simp at h; subst h; exact List.mem_cons_self _ _


theorem mem_narrowMinBy (key : GraphOpt → ℚ) (l : List GraphOpt)
    (x : GraphOpt) (hx : x ∈ narrowMinBy key l) : x ∈ l := by
  cases l with
  | nil => simp [narrowMinBy] at hx
  | cons y tl => exact ((mem_filterP _ _ _).1 hx).1

theorem choose_best_next_mem (pangle : RouteRow → GraphOpt → ℚ)
    (plm : RouteRow → ℚ) (options : List GraphOpt)
    (parent : Option RouteRow) (best : GraphOpt)
    (h : choose_best_next pangle plm options parent = some best) :
    best ∈ options := by
  rw [choose_best_next] at h
  by_cases h0 : options.isEmpty
  · rw [if_pos h0] at h
    exact absurd h (by simp)
  · rw [if_neg h0] at h
    by_cases h1 : (narrowMinBy (fun o => o.angle) options).length = 1
    · rw [if_pos h1] at h
      exact mem_narrowMinBy _ _ _ (head?_eq_some_mem _ _ h)
    · rw [if_neg h1] at h
      by_cases h2 : (narrowMinBy (fun o => o.route.length)
          (narrowMinBy (fun o => o.angle) options)).length = 1
      · rw [if_pos h2] at h
        exact mem_narrowMinBy _ _ _
          (mem_narrowMinBy _ _ _ (head?_eq_some_mem _ _ h))
      · rw [if_neg h2] at h
        rcases parent with _ | par
        · simp only at h
          exact mem_narrowMinBy _ _ _ (mem_narrowMinBy _ _ _
            (mem_narrowMinBy _ _ _ (head?_eq_some_mem _ _ h)))
        · simp only at h
          exact mem_narrowMinBy _ _ _ (mem_narrowMinBy _ _ _
            (mem_narrowMinBy _ _ _
              (mem_narrowMinBy _ _ _ (head?_eq_some_mem _ _ h))))

theorem buildStretchLoop_spec (pangle : RouteRow → GraphOpt → ℚ)
    (plm : RouteRow → ℚ) (fwd : ℤ → List GraphOpt)
    (routeMap : ℤ → Option RouteRow) (routes : List RouteRow)
    (hg : ∀ u o, o ∈ fwd u → o.route ∈ routes) :
    ∀ (fuel : ℕ) (cur : ℤ) (parent : Option ℤ) (stretch used : List ℤ),
      used.Nodup →
      ∃ t, (buildStretchLoop pangle plm fwd routeMap fuel cur parent stretch
              used).1 = stretch ++ t ∧
        (buildStretchLoop pangle plm fwd routeMap fuel cur parent stretch
            used).2 = used ++ t ∧
        (∀ x ∈ t, x ∈ routes.map RouteRow.uuid) ∧
        (used ++ t).Nodup := by
  intro fuel
  induction fuel with
  | zero =>
    intro cur parent stretch used hu
    exact ⟨[], by simp [buildStretchLoop], by simp [buildStretchLoop],
      by simp, by simpa using hu⟩
  | succ fuel ih =>
    intro cur parent stretch used hu
    rw [buildStretchLoop]
    cases hbest : choose_best_next pangle plm (fwd cur) (parent.bind routeMap) with
    | none =>
      exact ⟨[], by simp, by simp, by simp, by simpa using hu⟩
    | some best =>
      simp only
      by_cases hnin : best.route.uuid ∈ used
      · rw [if_pos hnin]
        exact ⟨[], by simp, by simp, by simp, by simpa using hu⟩
      · rw [if_neg hnin]
        have hu' : (used ++ [best.route.uuid]).Nodup := by
          rw [List.nodup_append]
          refine ⟨hu, List.nodup_singleton _, fun a ha hb => ?_⟩
          rcases List.mem_singleton.1 hb with rfl
          exact hnin ha
        rcases ih best.route.uuid (some cur) (stretch ++ [best.route.uuid])
          (used ++ [best.route.uuid]) hu' with ⟨t, h1, h2, h3, h4⟩
        refine ⟨best.route.uuid :: t, ?_, ?_, ?_, ?_⟩
        · rw [h1, List.append_assoc]; rfl
        · rw [h2, List.append_assoc]; rfl
        · intro x hx
          rcases List.mem_cons.1 hx with rfl | hx'
          · exact List.mem_map_of_mem _
              (hg cur best (choose_best_next_mem _ _ _ _ _ hbest))
          · exact h3 x hx'
        · rw [← List.singleton_append, ← List.append_assoc]
          exact h4

theorem buildStretches_fold1_spec (pangle : RouteRow → GraphOpt → ℚ)
    (plm : RouteRow → ℚ) (fwd : ℤ → List GraphOpt)
    (routeMap : ℤ → Option RouteRow) (routes : List RouteRow) (fl : ℕ)
    (hg : ∀ u o, o ∈ fwd u → o.route ∈ routes) :
    ∀ (nodes : List RouteRow), (∀ r ∈ nodes, r ∈ routes) →
    ∀ (acc : List (List ℤ) × List ℤ),
      acc.1.flatten = acc.2 → acc.2.Nodup →
      (∀ x ∈ acc.2, x ∈ routes.map RouteRow.uuid) →
      (let fs := nodes.foldl (fun (acc : List (List ℤ) × List ℤ) route =>
          if route.uuid ∈ acc.2 then acc
          else
            let res := buildStretchLoop pangle plm fwd routeMap fl
              route.uuid none [route.uuid] (acc.2 ++ [route.uuid])
            (acc.1 ++ [res.1], res.2)) acc
       fs.1.flatten = fs.2 ∧ fs.2.Nodup ∧
       (∀ x ∈ fs.2, x ∈ routes.map RouteRow.uuid) ∧
       (∀ x ∈ acc.2, x ∈ fs.2)) := by
  intro nodes
  induction nodes with
  | nil =>
    intro _ acc h1 h2 h3
    exact ⟨h1, h2, h3, fun x hx => hx⟩
  | cons route tl ih =>
    intro hsub acc h1 h2 h3
    simp only [List.foldl_cons]
    by_cases hin : route.uuid ∈ acc.2
    · rw [if_pos hin]
      exact ih (fun r hr => hsub r (List.mem_cons_of_mem _ hr)) acc h1 h2 h3
    · rw [if_neg hin]
      have hu' : (acc.2 ++ [route.uuid]).Nodup := by
        rw [List.nodup_append]
        refine ⟨h2, List.nodup_singleton _, fun a ha hb => ?_⟩
        rcases List.mem_singleton.1 hb with rfl
        exact hin ha
      rcases buildStretchLoop_spec pangle plm fwd routeMap routes hg fl
        route.uuid none [route.uuid] (acc.2 ++ [route.uuid]) hu'
        with ⟨t, hb1, hb2, hb3, hb4⟩
      have hflat : (acc.1 ++ [(buildStretchLoop pangle plm fwd routeMap fl
          route.uuid none [route.uuid] (acc.2 ++ [route.uuid])).1]).flatten =
          (buildStretchLoop pangle plm fwd routeMap fl route.uuid none
            [route.uuid] (acc.2 ++ [route.uuid])).2 := by
        rw [hb1, hb2, List.flatten_append, h1]
        simp
      have hmem : ∀ x ∈ (buildStretchLoop pangle plm fwd routeMap fl
          route.uuid none [route.uuid] (acc.2 ++ [route.uuid])).2,
          x ∈ routes.map RouteRow.uuid := by
        intro x hx
        rw [hb2] at hx
        rcases List.mem_append.1 hx with hx' | hx'
        · rcases List.mem_append.1 hx' with hx'' | hx''
          · exact h3 x hx''
          · rcases List.mem_singleton.1 hx'' with rfl
            exact List.mem_map_of_mem _ (hsub route (List.mem_cons_self _ _))
        · exact hb3 x hx'
      have hnd : (buildStretchLoop pangle plm fwd routeMap fl route.uuid none
          [route.uuid] (acc.2 ++ [route.uuid])).2.Nodup := by
        rw [hb2]; exact hb4
      have := ih (fun r hr => hsub r (List.mem_cons_of_mem _ hr))
        (acc.1 ++ [(buildStretchLoop pangle plm fwd routeMap fl route.uuid
          none [route.uuid] (acc.2 ++ [route.uuid])).1],
         (buildStretchLoop pangle plm fwd routeMap fl route.uuid none
          [route.uuid] (acc.2 ++ [route.uuid])).2)
        hflat hnd hmem
      refine ⟨this.1, this.2.1, this.2.2.1, fun x hx => this.2.2.2 x ?_⟩
      rw [hb2]
      exact List.mem_append.2 (Or.inl (List.mem_append.2 (Or.inl hx)))

theorem buildStretches_fold2_spec :
    ∀ (rem : List RouteRow) (routes : List RouteRow),
      (∀ r ∈ rem, r ∈ routes) →
    ∀ (acc : List (List ℤ) × List ℤ),
      acc.1.flatten = acc.2 → acc.2.Nodup →
      (∀ x ∈ acc.2, x ∈ routes.map RouteRow.uuid) →
      (let fin := rem.foldl (fun (acc : List (List ℤ) × List ℤ) route =>
          if route.uuid ∈ acc.2 then acc
          else (acc.1 ++ [[route.uuid]], acc.2 ++ [route.uuid])) acc
       fin.1.flatten = fin.2 ∧ fin.2.Nodup ∧
       (∀ x ∈ fin.2, x ∈ routes.map RouteRow.uuid) ∧
       (∀ x ∈ acc.2, x ∈ fin.2) ∧
       (∀ r ∈ rem, r.uuid ∈ fin.2)) := by
  intro rem
  induction rem with
  | nil =>
    intro routes _ acc h1 h2 h3
    exact ⟨h1, h2, h3, fun x hx => hx, by simp⟩
  | cons route tl ih =>
    intro routes hsub acc h1 h2 h3
    simp only [List.foldl_cons]
    by_cases hin : route.uuid ∈ acc.2
    · rw [if_pos hin]
      have := ih routes (fun r hr => hsub r (List.mem_cons_of_mem _ hr)) acc
        h1 h2 h3
      refine ⟨this.1, this.2.1, this.2.2.1, this.2.2.2.1, ?_⟩
      intro r hr
      rcases List.mem_cons.1 hr with rfl | hr'
      · exact this.2.2.2.1 _ hin
      · exact this.2.2.2.2 r hr'
    · rw [if_neg hin]
      have h1' : (acc.1 ++ [[route.uuid]]).flatten = acc.2 ++ [route.uuid] := by
        rw [List.flatten_append, h1]; simp
      have h2' : (acc.2 ++ [route.uuid]).Nodup := by
        rw [List.nodup_append]
        refine ⟨h2, List.nodup_singleton _, fun a ha hb => ?_⟩
        rcases List.mem_singleton.1 hb with rfl
        exact hin ha
      have h3' : ∀ x ∈ acc.2 ++ [route.uuid], x ∈ routes.map RouteRow.uuid := by
        intro x hx
        rcases List.mem_append.1 hx with hx' | hx'
        · exact h3 x hx'
        · rcases List.mem_singleton.1 hx' with rfl
          exact List.mem_map_of_mem _ (hsub route (List.mem_cons_self _ _))
      have := ih routes (fun r hr => hsub r (List.mem_cons_of_mem _ hr))
        (acc.1 ++ [[route.uuid]], acc.2 ++ [route.uuid]) h1' h2' h3'
      refine ⟨this.1, this.2.1, this.2.2.1, ?_, ?_⟩
      · intro x hx
        exact this.2.2.2.1 x (List.mem_append.2 (Or.inl hx))
      · intro r hr
        rcases List.mem_cons.1 hr with rfl | hr'
        · exact this.2.2.2.1 _
            (List.mem_append.2 (Or.inr (List.mem_singleton.2 rfl)))
        · exact this.2.2.2.2 r hr'

/-- C9: for every route list with distinct uuids and every forward/reverse
adjacency built from those routes (`build_graphs` only ever stores input
routes in its graphs, which is the `hg` hypothesis), `build_stretches`
assigns every route's uuid to exactly one stretch: the concatenation of the
returned stretches is a permutation of the input uuid list — nothing is
duplicated (the `used` set guards every append) and nothing is dropped
(routes not reached from a start node are emitted as singleton
stretches). -/
theorem C9_build_stretches_partition (pangle : RouteRow → GraphOpt → ℚ) (plm : RouteRow → ℚ)
    (routes : List RouteRow) (fwd rev : ℤ → List GraphOpt)
    (hn : (routes.map RouteRow.uuid).Nodup)
    (hg : ∀ u o, o ∈ fwd u → o.route ∈ routes) :
    ((build_stretches pangle plm routes fwd rev).flatten).Perm
      (routes.map RouteRow.uuid) := by
  simp only [build_stretches]
  have h1 := buildStretches_fold1_spec pangle plm fwd
    (fun u => firstSuchThat (fun r : RouteRow => r.uuid = u) routes) routes
    routes.length hg
    (filterP (fun r : RouteRow => rev r.uuid = []) routes)
    (fun r hr => ((mem_filterP _ _ _).1 hr).1)
    ([], []) rfl (List.nodup_nil) (by simp)
  set fs := (filterP (fun r : RouteRow => rev r.uuid = []) routes).foldl
    (fun (acc : List (List ℤ) × List ℤ) route =>
      if route.uuid ∈ acc.2 then acc
      else
        let res := buildStretchLoop pangle plm fwd
          (fun u => firstSuchThat (fun r : RouteRow => r.uuid = u) routes)
          routes.length route.uuid none [route.uuid]
          (acc.2 ++ [route.uuid])
        (acc.1 ++ [res.1], res.2)) ([], []) with hfs
  have h2 := buildStretches_fold2_spec
    (filterP (fun r : RouteRow => r.uuid ∉ fs.2) routes) routes
    (fun r hr => ((mem_filterP _ _ _).1 hr).1) fs h1.1 h1.2.1 h1.2.2.1
  set fin := (filterP (fun r : RouteRow => r.uuid ∉ fs.2) routes).foldl
    (fun (acc : List (List ℤ) × List ℤ) route =>
      if route.uuid ∈ acc.2 then acc
      else (acc.1 ++ [[route.uuid]], acc.2 ++ [route.uuid])) fs with hfin
  rw [(List.perm_ext_iff_of_nodup (h2.1 ▸ h2.2.1) hn)]
  intro a
  rw [h2.1]
  constructor
  · exact fun ha => h2.2.2.1 a ha
  · intro ha
    rcases List.mem_map.1 ha with ⟨r, hr, rfl⟩
    by_cases hcase : r.uuid ∈ fs.2
    · exact h2.2.2.2.1 _ hcase
    · exact h2.2.2.2.2 r ((mem_filterP _ _ _).2 ⟨hr, hcase⟩)

/-- Two concrete routes, 1 → 2, for the C9 witness. -/
def routesW : List RouteRow := [⟨1, 1⟩, ⟨2, 1⟩]

/-- Forward graph of `routesW`: route 1 continues into route 2. -/
def fwdW : ℤ → List GraphOpt := fun u => if u = 1 then [⟨⟨2, 1⟩, 0⟩] else []

/-- Reverse graph of `routesW`. -/
def revW : ℤ → List GraphOpt := fun u => if u = 2 then [⟨⟨1, 1⟩, 0⟩] else []

/-- Witness for `C9_build_stretches_partition` on the concrete two-route
chain. -/
theorem C9_witness :
    ((build_stretches (fun _ _ => 0) (fun _ => 0) routesW fwdW
        revW).flatten).Perm (routesW.map RouteRow.uuid) := by
  apply C9_build_stretches_partition
  · norm_num [routesW]
  · intro u o h
    by_cases hu : u = 1
    · simp only [fwdW, if_pos hu] at h
      rcases List.mem_singleton.1 h with rfl
      exact List.mem_cons_of_mem _ (List.mem_singleton.2 rfl)
    · simp [fwdW, hu] at h

/-!
## C6: non-positive target lengths
-/

theorem edgeLoop_nonpos_target (d : Pt → Pt → ℚ) (interp : Pt → Pt → ℚ → Pt)
    (T : ℚ) (hT : T ≤ 0) (p2 : Pt) :
    ∀ (fuel : ℕ) (segs : List (List Pt)) (cur : List Pt) (curStart : Pt)
      (remaining : ℚ), epsSeg < remaining →
      edgeLoop d interp T p2 fuel segs cur 0 curStart remaining = none := by
  intro fuel
  induction fuel with
  | zero => intro segs cur curStart remaining _; rfl
  | succ fuel ih =>
    intro segs cur curStart remaining hr
    rw [edgeLoop]
    rw [if_neg (not_le.2 hr)]
    have hspace : T - 0 < remaining := by
      calc T - 0 = T := by ring
        _ ≤ 0 := hT
        _ < epsSeg := by norm_num [epsSeg]
        _ < remaining := hr
    rw [if_neg (not_le.2 hspace)]
    apply ih
    have : 0 ≤ -(T - 0) := by simp [hT]
    calc epsSeg < remaining := hr
      _ ≤ remaining + -(T - 0) := le_add_of_nonneg_right this
      _ = remaining - (T - 0) := by ring

/-- C6: calling the distance segmentation with `distance_km ≤ 0` does not
raise anything — the inner cutting loop never terminates (the per-iteration
capacity `space_in_segment = distance_km - accumulated` is never positive,
so `remaining_dist` never decreases below the epsilon): the fueled embedding
returns `none` for EVERY fuel as soon as the first edge is longer than the
`1e-9` epsilon.  The specified `InvalidArgumentError` does not exist in the
code. -/
theorem C6_nonpos_target_never_terminates (d : Pt → Pt → ℚ)
    (interp : Pt → Pt → ℚ → Pt) (T : ℚ) (hT : T ≤ 0) (c0 c1 : Pt)
    (tl : List Pt) (h : epsSeg < d c0 c1) (fuel : ℕ) :
    segment_polyline_by_distance d interp (c0 :: c1 :: tl) T fuel = none := by
  rw [segment_polyline_by_distance, segLoop,
    edgeLoop_nonpos_target d interp T hT c1 fuel [] [c0] c0 (d c0 c1) h]

/-- Witness for `C6_nonpos_target_never_terminates`: the two-point polyline
(0,0)–(0,3) at target 0 exhausts any fuel (here 7). -/
theorem C6_witness :
    segment_polyline_by_distance dTaxi interpLin [((0 : ℚ), 0), (0, 3)] 0 7
      = none :=
  C6_nonpos_target_never_terminates dTaxi interpLin 0 le_rfl (0, 0) (0, 3)
    [] (by norm_num [dTaxi, epsSeg]) 7

/-!
## C1: the distance segmenter on clean runs
-/

theorem line_length_append_last (d : Pt → Pt → ℚ) (l : List Pt) (y x : Pt)
    (h : l.getLast? = some y) :
    line_length d (l ++ [x]) = line_length d l + d y x := by
  induction l with
  | nil => simp at h
  | cons a tl ih =>
    cases tl with
    | nil =>
      simp at h
      subst h
      simp [line_length]
    | cons b tl2 =>
      have h' : (b :: tl2).getLast? = some y := by
        rw [List.getLast?_cons_cons] at h
        exact h
      have hrec := ih h'
      show d a b + line_length d ((b :: tl2) ++ [x]) =
        (d a b + line_length d (b :: tl2)) + d y x
      rw [hrec]
      ring

theorem joinTails_append (l1 l2 : List (List Pt)) :
    joinTails (l1 ++ l2) = joinTails l1 ++ joinTails l2 := by
  induction l1 with
  | nil => simp [joinTails]
  | cons s rest ih => simp [joinTails, ih]

theorem joinPieces_append_single (l : List (List Pt)) (s : List Pt)
    (hl : l ≠ []) : joinPieces (l ++ [s]) = joinPieces l ++ s.tail := by
  cases l with
  | nil => exact absurd rfl hl
  | cons s0 rest =>
    simp only [List.cons_append, joinPieces, joinTails_append, joinTails]
    simp

theorem joinPieces_extend_last (segs : List (List Pt)) (cur : List Pt)
    (x : Pt) (hc : cur ≠ []) :
    joinPieces (segs ++ [cur ++ [x]]) = joinPieces (segs ++ [cur]) ++ [x] := by
  cases segs with
  | nil =>
    simp only [List.nil_append, joinPieces, joinTails]
    simp
  | cons s0 rest =>
    rw [joinPieces_append_single _ _ (by simp),
      joinPieces_append_single _ _ (by simp)]
    have : (cur ++ [x]).tail = cur.tail ++ [x] := by
      cases cur with
      | nil => exact absurd rfl hc
      | cons a tl => simp
    rw [this, List.append_assoc]

theorem joinPieces_drop_singleton (segs : List (List Pt)) (x : Pt)
    (hs : segs ≠ []) : joinPieces (segs ++ [[x]]) = joinPieces segs := by
  rw [joinPieces_append_single _ _ hs]
  simp

theorem edgeLoop_clean_spec (d : Pt → Pt → ℚ) (interp : Pt → Pt → ℚ → Pt)
    (T : ℚ)
    (hdnn : ∀ a b, 0 ≤ d a b)
    (hia : ∀ a b f, 0 ≤ f → f ≤ 1 → d a (interp a b f) = f * d a b)
    (hib : ∀ a b f, 0 ≤ f → f ≤ 1 → d (interp a b f) b = (1 - f) * d a b)
    (p2 : Pt) :
    ∀ (fuel : ℕ) (segs : List (List Pt)) (cur : List Pt) (acc : ℚ)
      (curStart : Pt),
      cur ≠ [] → cur.getLast? = some curStart →
      acc = line_length d cur → 0 ≤ acc → acc ≤ T →
      edgeLoopClean d T fuel acc (d curStart p2) = some true →
      ∃ segs' cur' acc',
        edgeLoop d interp T p2 fuel segs cur acc curStart (d curStart p2) =
          some (segs', cur', acc') ∧
        cur' ≠ [] ∧ cur'.getLast? = some p2 ∧
        acc' = line_length d cur' ∧ 0 ≤ acc' ∧ acc' ≤ T ∧
        (∃ Δ, segs' = segs ++ Δ ∧
          ∀ s ∈ Δ, line_length d s < T + epsSeg ∧ 2 ≤ s.length) ∧
        (segs'.map (line_length d)).sum + acc' =
          (segs.map (line_length d)).sum + acc + d curStart p2 ∧
        ∃ mid, joinPieces (segs' ++ [cur']) =
          joinPieces (segs ++ [cur]) ++ mid ++ [p2] := by
  intro fuel
  induction fuel with
  | zero =>
    intro segs cur acc curStart _ _ _ _ _ hclean
    exact absurd hclean (by rw [edgeLoopClean]; simp)
  | succ fuel ih =>
    intro segs cur acc curStart hcne hlast hacc hacc0 haccT hclean
    rw [edgeLoopClean] at hclean
    by_cases hre : d curStart p2 ≤ epsSeg
    · rw [if_pos hre] at hclean
      exact absurd hclean (by simp)
    rw [if_neg hre] at hclean
    push_neg at hre
    rw [edgeLoop, if_neg (not_le.2 hre)]
    by_cases hfits : d curStart p2 ≤ T - acc
    · -- append branch
      rw [if_pos hfits]
      have hlenext : line_length d (cur ++ [p2]) = acc + d curStart p2 := by
        rw [line_length_append_last d cur curStart p2 hlast, hacc]
      by_cases hclose : |acc + d curStart p2 - T| < epsSeg
      · -- exact fill: close the piece
        rw [if_pos hclose]
        refine ⟨segs ++ [cur ++ [p2]], [p2], 0, rfl, by simp,
          by simp, by simp [line_length], le_rfl, le_trans hacc0 haccT,
          ⟨[cur ++ [p2]], rfl, ?_⟩, ?_, ⟨[], ?_⟩⟩
        · intro s hs
          rcases List.mem_singleton.1 hs with rfl
          constructor
          · rw [hlenext]
            have := abs_lt.1 hclose
            linarith [this.2]
          · rcases List.exists_cons_of_ne_nil hcne with ⟨a, tl, rfl⟩
            simp
        · simp [hlenext]
          ring
        · rw [joinPieces_drop_singleton _ _ (by simp),
            joinPieces_extend_last _ _ _ hcne]
          simp
      · -- extend the open piece
        rw [if_neg hclose]
        refine ⟨segs, cur ++ [p2], acc + d curStart p2, rfl,
          by simp, List.getLast?_concat cur, hlenext.symm,
          by have := hdnn curStart p2; linarith, by linarith,
          ⟨[], by simp, by simp⟩, by ring,
          ⟨[], ?_⟩⟩
        rw [joinPieces_extend_last _ _ _ hcne]
        simp
    · -- cut branch
      rw [if_neg hfits] at hclean ⊢
      push_neg at hfits
      have hrpos : 0 < d curStart p2 := lt_trans (by norm_num [epsSeg]) hre
      have hrne : d curStart p2 ≠ 0 := ne_of_gt hrpos
      set space := T - acc with hspace
      set frac := space / d curStart p2 with hfrac
      have hsp0 : 0 ≤ space := by simp [hspace]; linarith
      have hf0 : 0 ≤ frac := div_nonneg hsp0 (le_of_lt hrpos)
      have hf1 : frac ≤ 1 := by
        rw [hfrac, div_le_one hrpos]
        exact le_of_lt hfits
      set cut := interp curStart p2 frac with hcut
      have hdcut : d curStart cut = space := by
        rw [hcut, hia _ _ _ hf0 hf1, hfrac, div_mul_cancel₀ _ hrne]
      have hdrem : d cut p2 = d curStart p2 - space := by
        rw [hcut, hib _ _ _ hf0 hf1, sub_mul, one_mul, hfrac,
          div_mul_cancel₀ _ hrne]
      have hclean' : edgeLoopClean d T fuel 0 (d cut p2) = some true := by
        rw [hdrem]; exact hclean
      have hTnn : 0 ≤ T := le_trans hacc0 haccT
      obtain ⟨segs', cur', acc', heq, hc'ne, hc'last, hacc', h0', hT', hΔ,
        hsum, hjoin⟩ :=
        ih (segs ++ [cur ++ [cut]]) [cut] 0 cut (by simp) (by simp)
          (by simp [line_length]) le_rfl hTnn hclean'
      rw [hdrem] at heq
      refine ⟨segs', cur', acc', heq, hc'ne, hc'last, hacc', h0', hT', ?_,
        ?_, ?_⟩
      · rcases hΔ with ⟨Δ, hsegs', hΔ⟩
        refine ⟨(cur ++ [cut]) :: Δ, by simp [hsegs'], ?_⟩
        intro s hs
        rcases List.mem_cons.1 hs with rfl | hs
        · constructor
          · rw [line_length_append_last d cur curStart cut hlast, hdcut,
              ← hacc]
            have : 0 < epsSeg := by norm_num [epsSeg]
            simp [hspace]
            linarith
          · rcases List.exists_cons_of_ne_nil hcne with ⟨a, tl, rfl⟩
            simp
        · exact hΔ s hs
      · rw [hsum]
        have : line_length d (cur ++ [cut]) = acc + space := by
          rw [line_length_append_last d cur curStart cut hlast, hdcut, hacc]
        simp [this]
        rw [hdrem, hspace]
        ring
      · rcases hjoin with ⟨mid, hmid⟩
        rw [joinPieces_drop_singleton _ _ (by simp),
          joinPieces_extend_last _ _ _ hcne] at hmid
        exact ⟨cut :: mid, by rw [hmid]; simp⟩

theorem segLoop_clean_spec (d : Pt → Pt → ℚ) (interp : Pt → Pt → ℚ → Pt)
    (T : ℚ)
    (hdnn : ∀ a b, 0 ≤ d a b)
    (hia : ∀ a b f, 0 ≤ f → f ≤ 1 → d a (interp a b f) = f * d a b)
    (hib : ∀ a b f, 0 ≤ f → f ≤ 1 → d (interp a b f) b = (1 - f) * d a b)
    (fuel : ℕ) :
    ∀ (tl : List Pt) (p1 : Pt) (segs : List (List Pt)) (cur : List Pt)
      (acc : ℚ),
      cur ≠ [] → cur.getLast? = some p1 →
      acc = line_length d cur → 0 ≤ acc → acc ≤ T →
      segLoopClean d interp T fuel tl p1 segs cur acc = some true →
      ∃ segs' cur' acc',
        segLoop d interp T fuel tl p1 segs cur acc =
          some (segs', cur', acc') ∧
        cur' ≠ [] ∧ cur'.getLast? = some (tl.getLastD p1) ∧
        acc' = line_length d cur' ∧ 0 ≤ acc' ∧ acc' ≤ T ∧
        (∃ Δ, segs' = segs ++ Δ ∧
          ∀ s ∈ Δ, line_length d s < T + epsSeg ∧ 2 ≤ s.length) ∧
        (segs'.map (line_length d)).sum + acc' =
          (segs.map (line_length d)).sum + acc + line_length d (p1 :: tl) ∧
        ∃ suf, joinPieces (segs' ++ [cur']) =
          joinPieces (segs ++ [cur]) ++ suf ∧
          tl.Sublist suf ∧ suf.getLast? = tl.getLast? := by
  intro tl
  induction tl with
  | nil =>
    intro p1 segs cur acc hcne hlast hacc h0 hT _
    exact ⟨segs, cur, acc, rfl, hcne, hlast, hacc, h0, hT,
      ⟨[], by simp, by simp⟩, by simp [line_length],
      ⟨[], by simp, List.Sublist.refl [], rfl⟩⟩
  | cons p2 tl' ih =>
    intro p1 segs cur acc hcne hlast hacc h0 hT hclean
    rw [segLoopClean] at hclean
    rcases hec : edgeLoopClean d T fuel acc (d p1 p2) with _ | b
    · rw [hec] at hclean; simp at hclean
    rcases b with _ | _
    · rw [hec] at hclean; simp at hclean
    rw [hec] at hclean
    obtain ⟨segs₁, cur₁, acc₁, heq, hc1ne, hc1last, hacc₁, h0₁, hT₁, hΔ₁,
      hsum₁, mid, hmid⟩ :=
      edgeLoop_clean_spec d interp T hdnn hia hib p2 fuel segs cur acc p1
        hcne hlast hacc h0 hT hec
    rw [heq] at hclean
    rw [segLoop, heq]
    obtain ⟨segs₂, cur₂, acc₂, heq₂, hc2ne, hc2last, hacc₂, h0₂, hT₂,
      ⟨Δ₂, hsegs₂, hΔ₂⟩, hsum₂, suf', hsuf', hsub', hlast'⟩ :=
      ih p2 segs₁ cur₁ acc₁ hc1ne hc1last hacc₁ h0₁ hT₁ hclean
    refine ⟨segs₂, cur₂, acc₂, heq₂, hc2ne, ?_, hacc₂, h0₂, hT₂, ?_, ?_, ?_⟩
    · rw [List.getLastD_cons]
      exact hc2last
    · rcases hΔ₁ with ⟨Δ₁, hsegs₁, hΔ₁⟩
      refine ⟨Δ₁ ++ Δ₂, by rw [hsegs₂, hsegs₁, List.append_assoc], ?_⟩
      intro s hs
      rcases List.mem_append.1 hs with hs | hs
      · exact hΔ₁ s hs
      · exact hΔ₂ s hs
    · rw [hsum₂, hsum₁]
      have : line_length d (p1 :: p2 :: tl') =
          d p1 p2 + line_length d (p2 :: tl') := rfl
      rw [this]
      ring
    · refine ⟨mid ++ (p2 :: suf'), ?_, ?_, ?_⟩
      · rw [hsuf', hmid]
        simp
      · have h1 : (p2 :: tl').Sublist (p2 :: suf') :=
          List.Sublist.cons₂ p2 hsub'
        exact h1.trans (List.sublist_append_right mid (p2 :: suf'))
      · cases tl' with
        | nil =>
          have hnil : suf' = [] := by
            rw [List.getLast?_nil] at hlast'
            exact List.getLast?_eq_none_iff.1 hlast'
          subst hnil
          rw [List.getLast?_append_of_ne_nil _ (by simp)]
        | cons q tl'' =>
          have hsne : suf' ≠ [] := by
            intro hnil
            rw [hnil, List.getLast?_nil] at hlast'
            have h3 := List.getLast?_eq_none_iff.1 hlast'.symm
            simp at h3
          rw [List.getLast?_cons_cons]
          rw [← hlast']
          have h2 : (p2 :: suf').getLast? = suf'.getLast? := by
            rcases List.exists_cons_of_ne_nil hsne with ⟨a, r, rfl⟩
            exact List.getLast?_cons_cons
          rw [List.getLast?_append_of_ne_nil _ (by simp), h2]

/-- C1 (amended): on CLEAN runs — no edge and no post-cut remainder of
length `≤ 1e-9` km, so the skip exit of the inner loop never fires — and for
kernels `d`/`interp` that are nonnegative and exactly additive along the
interpolation, `segment_polyline_by_distance` conserves length EXACTLY (the
piece lengths sum to the path length), every piece (the last one included)
is shorter than `T + 1e-9` and has at least two points, and the
concatenation of the pieces with the duplicated cut points dropped contains
the original coordinates in order as a subsequence (cut points inserted)
with the same first and last point.  The original claim fails because a
coordinate whose edge is `≤ 1e-9` km (e.g. a repeated point) is silently
dropped from the output, so the concatenation need not reproduce the input
sequence; see the counterexample. -/
theorem C1_clean_run_segmentation (d : Pt → Pt → ℚ) (interp : Pt → Pt → ℚ → Pt)
    (hdnn : ∀ a b, 0 ≤ d a b)
    (hia : ∀ a b f, 0 ≤ f → f ≤ 1 → d a (interp a b f) = f * d a b)
    (hib : ∀ a b f, 0 ≤ f → f ≤ 1 → d (interp a b f) b = (1 - f) * d a b)
    (coords : List Pt) (T : ℚ) (fuel : ℕ) (segs : List (List Pt))
    (hlen : 2 ≤ coords.length) (hT : 0 < T)
    (hrun : segment_polyline_by_distance d interp coords T fuel = some segs)
    (hclean : segRunClean d interp coords T fuel = some true) :
    (segs.map (line_length d)).sum = line_length d coords ∧
    (∀ s ∈ segs, line_length d s < T + epsSeg ∧ 2 ≤ s.length) ∧
    coords.Sublist (joinPieces segs) ∧
    (joinPieces segs).head? = coords.head? ∧
    (joinPieces segs).getLast? = coords.getLast? := by
  rcases coords with _ | ⟨c0, _ | ⟨c1, tl⟩⟩
  · simp at hlen
  · simp at hlen
  rw [segment_polyline_by_distance] at hrun
  rw [segRunClean] at hclean
  obtain ⟨segs', cur', acc', heq, hc'ne, hc'last, hacc', h0', hT',
    ⟨Δ, hsegs', hΔ⟩, hsum, suf, hsuf, hsub, hslast⟩ :=
    segLoop_clean_spec d interp T hdnn hia hib fuel (c1 :: tl) c0 [] [c0] 0
      (by simp) (by simp) (by simp [line_length]) le_rfl (le_of_lt hT) hclean
  rw [heq] at hrun
  have hsegs : segs = if 1 < cur'.length then segs' ++ [cur'] else segs' := by
    exact (Option.some.inj hrun).symm
  have hJ : joinPieces (segs' ++ [cur']) = c0 :: suf := by
    rw [hsuf]
    simp [joinPieces, joinTails]
  have hsufne : suf ≠ [] := by
    intro hnil
    rw [hnil] at hsub
    exact absurd (List.sublist_nil.1 hsub) (by simp)
  have hJsub : (c0 :: c1 :: tl).Sublist (c0 :: suf) :=
    List.Sublist.cons₂ c0 hsub
  have hJlast : (c0 :: suf).getLast? = (c0 :: c1 :: tl).getLast? := by
    rcases List.exists_cons_of_ne_nil hsufne with ⟨a, r, rfl⟩
    rw [List.getLast?_cons_cons, List.getLast?_cons_cons, hslast]
  have hsum0 : (segs'.map (line_length d)).sum + acc' =
      line_length d (c0 :: c1 :: tl) := by
    rw [hsum]
    simp
  by_cases hkeep : 1 < cur'.length
  · rw [hsegs, if_pos hkeep]
    refine ⟨?_, ?_, ?_, ?_, ?_⟩
    · rw [← hsum0]
      simp [hacc']
    · intro s hs
      rcases List.mem_append.1 hs with hs | hs
      · exact hΔ s (by rw [hsegs'] at hs; simpa using hs)
      · rcases List.mem_singleton.1 hs with rfl
        have heps : (0 : ℚ) < epsSeg := by norm_num [epsSeg]
        exact ⟨by rw [← hacc']; linarith, hkeep⟩
    · rw [hJ]; exact hJsub
    · rw [hJ]; rfl
    · rw [hJ]; exact hJlast
  · rw [hsegs, if_neg hkeep]
    rcases List.exists_cons_of_ne_nil hc'ne with ⟨x, r, rfl⟩
    have hr : r = [] := by
      rcases r with _ | ⟨y, r'⟩
      · rfl
      · exact absurd (by simp) hkeep
    subst hr
    have hacc0 : acc' = 0 := by rw [hacc']; rfl
    have hs'ne : segs' ≠ [] := by
      intro hnil
      rw [hnil] at hJ
      have := congrArg List.length hJ
      simp [joinPieces, joinTails] at this
      rcases List.exists_cons_of_ne_nil hsufne with ⟨a, r2, rfl⟩
      simp at this
    have hJ' : joinPieces segs' = c0 :: suf := by
      rw [← joinPieces_drop_singleton segs' x hs'ne, hJ]
    refine ⟨?_, ?_, ?_, ?_, ?_⟩
    · rw [← hsum0, hacc0]
      ring
    · intro s hs
      exact hΔ s (by rw [hsegs'] at hs; simpa using hs)
    · rw [hJ']; exact hJsub
    · rw [hJ']; rfl
    · rw [hJ']; exact hJlast

theorem dTaxi_nonneg (a b : Pt) : 0 ≤ dTaxi a b := by
  simp only [dTaxi]
  positivity

theorem dTaxi_interpLin_left (a b : Pt) (f : ℚ) (hf : 0 ≤ f) (_ : f ≤ 1) :
    dTaxi a (interpLin a b f) = f * dTaxi a b := by
  simp only [dTaxi, interpLin]
  have e1 : a.1 + f * (b.1 - a.1) - a.1 = f * (b.1 - a.1) := by ring
  have e2 : a.2 + f * (b.2 - a.2) - a.2 = f * (b.2 - a.2) := by ring
  rw [e1, e2, abs_mul, abs_mul, abs_of_nonneg hf]
  ring

theorem dTaxi_interpLin_right (a b : Pt) (f : ℚ) (_ : 0 ≤ f) (hf1 : f ≤ 1) :
    dTaxi (interpLin a b f) b = (1 - f) * dTaxi a b := by
  simp only [dTaxi, interpLin]
  have e1 : b.1 - (a.1 + f * (b.1 - a.1)) = (1 - f) * (b.1 - a.1) := by ring
  have e2 : b.2 - (a.2 + f * (b.2 - a.2)) = (1 - f) * (b.2 - a.2) := by ring
  rw [e1, e2, abs_mul, abs_mul, abs_of_nonneg (by linarith : (0:ℚ) ≤ 1 - f)]
  ring

set_option maxHeartbeats 1600000 in
/-- Witness for `C1_clean_run_segmentation`: the polyline
`[(0,0),(0,3),(0,5)]` cut at target 2 is a clean run producing
`[[(0,0),(0,2)],[(0,2),(0,3),(0,4)],[(0,4),(0,5)]]`; the instantiated
conclusions shown are exact length conservation and the subsequence
property. -/
theorem C1_witness :
    (([[((0 : ℚ), (0 : ℚ)), (0, 2)], [(0, 2), (0, 3), (0, 4)],
        [(0, 4), (0, 5)]]).map (line_length dTaxi)).sum =
      line_length dTaxi [((0 : ℚ), (0 : ℚ)), (0, 3), (0, 5)] ∧
    [((0 : ℚ), (0 : ℚ)), (0, 3), (0, 5)].Sublist
      (joinPieces [[((0 : ℚ), (0 : ℚ)), (0, 2)], [(0, 2), (0, 3), (0, 4)],
        [(0, 4), (0, 5)]]) := by
  obtain ⟨h1, _, h3, _, _⟩ :=
    C1_clean_run_segmentation dTaxi interpLin dTaxi_nonneg dTaxi_interpLin_left
      dTaxi_interpLin_right [((0 : ℚ), (0 : ℚ)), (0, 3), (0, 5)] 2 20
      [[((0 : ℚ), (0 : ℚ)), (0, 2)], [(0, 2), (0, 3), (0, 4)],
        [(0, 4), (0, 5)]]
      (by norm_num) (by norm_num)
      (by norm_num [segment_polyline_by_distance, segLoop, edgeLoop, dTaxi,
        interpLin, epsSeg])
      (by norm_num [segRunClean, segLoopClean, edgeLoopClean, edgeLoop, dTaxi,
        interpLin, epsSeg])
  exact ⟨h1, h3⟩

/-- Counterexample to C1 as stated: in `[(0,0),(0,0),(0,3)]` the first
edge has length `0 ≤ 1e-9`, so the inner loop exits without appending the
repeated point; the output is `[[(0,0),(0,2)],[(0,2),(0,3)]]` and its
deduplicated concatenation `[(0,0),(0,2),(0,3)]` does NOT contain the
original sequence as a subsequence (the duplicated `(0,0)` is lost), hence
it does not reproduce the original coordinates with only cut points
inserted. -/
theorem C1_counterexample_skipped_point :
    segment_polyline_by_distance dTaxi interpLin
      [((0 : ℚ), (0 : ℚ)), (0, 0), (0, 3)] 2 20 =
      some [[(0, 0), (0, 2)], [(0, 2), (0, 3)]] ∧
    ¬ [((0 : ℚ), (0 : ℚ)), (0, 0), (0, 3)].Sublist
      (joinPieces [[((0 : ℚ), (0 : ℚ)), (0, 2)], [(0, 2), (0, 3)]]) := by
  constructor
  · norm_num [segment_polyline_by_distance, segLoop, edgeLoop, dTaxi,
      interpLin, epsSeg]
  · intro h
    have hcount := h.count_le ((0 : ℚ), (0 : ℚ))
    simp only [joinPieces, joinTails, List.count_cons, List.count_nil,
      List.append_nil, List.tail_cons] at hcount
    norm_num [Prod.ext_iff] at hcount
